import Mathlib

/-!
Shallow embedding of the mirrord agent's TCP stealer core
(`mirrord/agent/src/steal/connection.rs`) and proofs about its
event-loop state machine.

Tables of the `TcpConnectionStealer` struct are modelled as association
lists with hash-map semantics (insert replaces, erase removes every entry
with the key).  OS resources (sockets, mpsc senders, oneshot senders,
hyper responses) are modelled as opaque numeric tokens.  External
nondeterminism (channel liveness, regex compilation, getsockopt results,
socket writes) is supplied by an explicit environment record.
-/

namespace Mirrord

/-- Client id assigned by the outer agent (`ClientId` in the source). -/
abbrev ClientId := Nat

/-- Dense connection id issued by the index allocator. -/
abbrev ConnectionId := Nat

/-- Request id, unique within one connection. -/
abbrev RequestId := Nat

/-- TCP port number. -/
abbrev Port := Nat

/-- Opaque token standing for a client's `Sender<DaemonTcp>` channel. -/
abbrev ChanId := Nat

section MapHelpers

variable {K V : Type} [DecidableEq K]

/-- Lookup in an association list (first entry with the key wins),
modelling `HashMap::get`. -/
def mlookup : List (K × V) → K → Option V
  | [], _ => none
  | (k', v) :: rest, k => if k' = k then some v else mlookup rest k

/-- Remove every entry with the given key, modelling `HashMap::remove`. -/
def merase (m : List (K × V)) (k : K) : List (K × V) :=
  m.filter (fun p => p.1 ≠ k)

/-- Insert with replacement, modelling `HashMap::insert`. -/
def minsert (m : List (K × V)) (k : K) (v : V) : List (K × V) :=
  (k, v) :: merase m k

/-- Set insert without duplication, modelling `HashSet::insert`. -/
def sinsert {A : Type} [DecidableEq A] (s : List A) (a : A) : List A :=
  if a ∈ s then s else a :: s

end MapHelpers

/-- An IPv4 socket address: opaque numeric ip plus a port. -/
structure SocketAddr where
  ip : Nat
  port : Port
deriving DecidableEq

/-- `Ipv4Addr::LOCALHOST` as a numeric token (127.0.0.1). -/
def localhostIp : Nat := 2130706433

/-- A compiled HTTP filter (`steal::http::HttpFilter`); the compiled
matcher itself is opaque, we keep the originating textual form. -/
inductive HttpFilter
  /-- `HttpFilter::new_header_filter(regex)` built from a header regex. -/
  | newHeaderFilter (pattern : String)
  /-- `HttpFilter::try_from(&filter)`: the extended filter form. -/
  | ex (spec : String)
deriving DecidableEq

/-- Subscription errors reported inside `DaemonTcp::SubscribeResult`
(`ResponseError` on the wire). -/
inductive ResponseError
  | portAlreadyStolen (port : Port)
  | badHttpFilterRegex (filter err : String)
  | badHttpFilterExRegex (filter err : String)
deriving DecidableEq

/-- `PortSubscription`: exclusive unfiltered holder, or an
insertion-ordered map of filtered holders. -/
inductive PortSubscription
  | Unfiltered (client : ClientId)
  | Filtered (filters : List (ClientId × HttpFilter))
deriving DecidableEq

deriving instance DecidableEq for Except

/-- Messages from the stealer to a client (`DaemonTcp`). -/
inductive DaemonTcp
  | NewConnection (connection_id : ConnectionId) (destination_port source_port : Port)
      (remote_address local_address : Nat)
  | Data (connection_id : ConnectionId) (bytes : List Nat)
  | Close (connection_id : ConnectionId)
  | HttpRequest (connection_id : ConnectionId) (request_id : RequestId) (payload : Nat)
  | HttpRequestFramed (connection_id : ConnectionId) (request_id : RequestId) (payload : Nat)
  | SubscribeResult (res : Except ResponseError Unit)
deriving DecidableEq

/-- `StealType` carried by `Command::PortSubscribe`. -/
inductive StealType
  | All (port : Port)
  | FilteredHttp (port : Port) (filter : String)
  | FilteredHttpEx (port : Port) (filter : String)
deriving DecidableEq

/-- `TcpData` carried by `Command::ResponseData`. -/
structure TcpData where
  connection_id : ConnectionId
  bytes : List Nat
deriving DecidableEq

/-- `HttpResponseFallback` carried by `Command::HttpResponse`; the
response body is an opaque token. -/
structure HttpResponseFallback where
  connection_id : ConnectionId
  request_id : RequestId
  payload : Nat
deriving DecidableEq

/-- The request part of `HandlerHttpRequest` produced by a filter task. -/
structure HttpRequestData where
  client_id : ClientId
  connection_id : ConnectionId
  request_id : RequestId
  payload : Nat
deriving DecidableEq

/-- Commands from the agent to the stealer (`Command`); the implicit
`client_id` of `StealerCommand` is passed alongside. -/
inductive Command
  | NewClient (daemon_tx : ChanId) (protocol_version : Nat)
  | ConnectionUnsubscribe (connection_id : ConnectionId)
  | PortSubscribe (port_steal : StealType)
  | PortUnsubscribe (port : Port)
  | ClientClose
  | ResponseData (tcp_data : TcpData)
  | HttpResponse (response : HttpResponseFallback)
  | SwitchProtocolVersion (version : Nat)
deriving DecidableEq

/-- The `AgentError` variants reachable from the stealer functions. -/
inductive AgentError
  | io
  | sendError
  | httpRequestReceiverClosed
deriving DecidableEq

/-- Result of running one stealer function: normal return, a returned
`Err(AgentError)`, or a Rust panic (`unwrap` on `None`). -/
inductive Outcome
  | ok
  | err (e : AgentError)
  | panic
deriving DecidableEq

/-- External nondeterminism an event-loop step can observe. -/
structure Env where
  /-- Whether a client mpsc channel still has a live receiver
  (`Sender::send` succeeds). -/
  chanAlive : ChanId → Bool
  /-- Whether a oneshot response receiver is still alive. -/
  oneshotAlive : Nat → Bool
  /-- Result of `fancy_regex::Regex::new` on the given pattern. -/
  regexNew : String → Except String Unit
  /-- Result of `HttpFilter::try_from` on an extended filter spec. -/
  filterExTryFrom : String → Except String Unit
  /-- Result of `orig_dst::orig_dst_addr` on an accepted stream token. -/
  origDst : Nat → Except Unit SocketAddr
  /-- Result of `TcpStream::local_addr` (ip part) on a stream token. -/
  localAddr : Nat → Except Unit Nat
  /-- Result of `HttpResponseFallback::into_hyper` on a payload token. -/
  intoHyper : Nat → Except Unit Nat
  /-- Whether `write_all` on a write half succeeds. -/
  writeOk : Nat → Bool

/-- Connection-id cap: `IndexAllocator<ConnectionId, 100>` in the source
(src line 50). -/
def indexAllocatorCap : Nat := 100

/-- Modelled from the spec: the Index Allocator (§4.A) is not under
`src/`; `next()` returns the smallest currently-unused id in
`[0, CAP)` and marks it live, or signals exhaustion.  The live set is
the allocator's state. -/
def next_index (allocated : List ConnectionId) : Option (ConnectionId × List ConnectionId) :=
  ((List.range indexAllocatorCap).find? (fun i => !(allocated.contains i))).map
    (fun i => (i, i :: allocated))

/-- Modelled from the spec: §4.A, `free(id)` returns the id to the pool;
`free` on an already-free id is a no-op. -/
def free_index (allocated : List ConnectionId) (i : ConnectionId) : List ConnectionId :=
  allocated.filter (fun j => j ≠ i)

/-- Modelled from the spec: the Port Subscriptions component (§4.C) is
not under `src/`; it maintains `port → PortSubscription` and the set of
installed kernel redirections. -/
structure PortSubscriptions where
  subscriptions : List (Port × PortSubscription)
  redirections : List Port
deriving DecidableEq

/-- Modelled from the spec: §4.C `get(port)`, a snapshot for dispatch. -/
def PortSubscriptions.get (ps : PortSubscriptions) (port : Port) : Option PortSubscription :=
  mlookup ps.subscriptions port

/-- Modelled from the spec: §4.C `add(client, port, filter?)`.  A fresh
port installs a redirection and the suitable variant; an `Unfiltered`
holder rejects everything; a `Filtered` holder accepts only a fresh
filtered client. -/
def PortSubscriptions.add (ps : PortSubscriptions) (client : ClientId) (port : Port)
    (filter : Option HttpFilter) : PortSubscriptions × Except ResponseError Unit :=
  match mlookup ps.subscriptions port with
  | none =>
    let sub := match filter with
      | none => PortSubscription.Unfiltered client
      | some f => PortSubscription.Filtered [(client, f)]
    (⟨minsert ps.subscriptions port sub, sinsert ps.redirections port⟩, .ok ())
  | some (.Unfiltered _) => (ps, .error (.portAlreadyStolen port))
  | some (.Filtered fs) =>
    match filter with
    | some f =>
      if (mlookup fs client).isSome then (ps, .error (.portAlreadyStolen port))
      else (⟨minsert ps.subscriptions port (.Filtered (fs ++ [(client, f)])),
             ps.redirections⟩, .ok ())
    | none => (ps, .error (.portAlreadyStolen port))

/-- Modelled from the spec: §4.C `remove(client, port)`; when the port
is left empty its redirection is removed. -/
def PortSubscriptions.remove (ps : PortSubscriptions) (client : ClientId) (port : Port) :
    PortSubscriptions :=
  match mlookup ps.subscriptions port with
  | none => ps
  | some (.Unfiltered c) =>
    if c = client then
      ⟨merase ps.subscriptions port, ps.redirections.filter (fun q => q ≠ port)⟩
    else ps
  | some (.Filtered fs) =>
    let fs' := fs.filter (fun p => p.1 ≠ client)
    if fs'.isEmpty then
      ⟨merase ps.subscriptions port, ps.redirections.filter (fun q => q ≠ port)⟩
    else ⟨minsert ps.subscriptions port (.Filtered fs'), ps.redirections⟩

/-- Modelled from the spec: §4.C `remove_all(client)` removes the
client's stake from every port it holds. -/
def PortSubscriptions.remove_all (ps : PortSubscriptions) (client : ClientId) :
    PortSubscriptions :=
  (ps.subscriptions.map (fun p => p.1)).foldl (fun acc port => acc.remove client port) ps

/-- The stealer's whole mutable state (`TcpConnectionStealer`).
`index_allocator` is the live-id set of the Index Allocator; channel
endpoints owned by the stealer itself are implicit in the loop
semantics below. -/
structure TcpConnectionStealer where
  port_subscriptions : PortSubscriptions
  /-- `clients`: client id to (sender channel, negotiated protocol
  version). -/
  clients : List (ClientId × (ChanId × Nat))
  index_allocator : List ConnectionId
  /-- `write_streams`: connection id to `WriteHalf` token. -/
  write_streams : List (ConnectionId × Nat)
  /-- `read_streams`: the `StreamMap` of `ReaderStream` tokens. -/
  read_streams : List (ConnectionId × Nat)
  connection_clients : List (ConnectionId × ClientId)
  client_connections : List (ClientId × List ConnectionId)
  http_connection_clients : List (ConnectionId × List ClientId)
  http_response_senders : List ((ConnectionId × RequestId) × Nat)
deriving DecidableEq

/-- The state right after `TcpConnectionStealer::new`: every table
empty. -/
def initialStealer : TcpConnectionStealer :=
  ⟨⟨[], []⟩, [], [], [], [], [], [], [], []⟩

/-- Result of one stealer function: the next state, the messages
delivered to client channels (in send order), the function's outcome,
and the connection id of a freshly spawned filter task if any. -/
structure StepResult where
  state : TcpConnectionStealer
  sent : List (ChanId × DaemonTcp)
  res : Outcome
  spawned : Option ConnectionId
deriving DecidableEq

/-- `Sender::send` on a client channel: delivered when the receiver is
alive, an error (message lost) otherwise. -/
def sendTo (env : Env) (chan : ChanId) (m : DaemonTcp) : List (ChanId × DaemonTcp) × Bool :=
  if env.chanAlive chan then ([(chan, m)], true) else ([], false)

/-- `remove_connection` (src 530-535): drop both stream halves, free the
index, and remove (returning) the `connection_clients` entry.  It does
not touch `client_connections`. -/
def remove_connection (st : TcpConnectionStealer) (connection_id : ConnectionId) :
    TcpConnectionStealer × Option ClientId :=
  ({ st with
      write_streams := merase st.write_streams connection_id
      read_streams := merase st.read_streams connection_id
      index_allocator := free_index st.index_allocator connection_id
      connection_clients := merase st.connection_clients connection_id },
   mlookup st.connection_clients connection_id)

/-- The loop body of `close_client` (src 441-443): close every
remaining connection via `remove_connection`. -/
def foldRemove (st : TcpConnectionStealer) (l : List ConnectionId) : TcpConnectionStealer :=
  l.foldl (fun acc cid => (remove_connection acc cid).1) st

/-- `close_client` (src 436-448): drop the client's port subscriptions,
close and remove all its remaining connections, then drop it from
`clients`. -/
def close_client (st : TcpConnectionStealer) (client_id : ClientId) : TcpConnectionStealer :=
  let st1 := { st with port_subscriptions := st.port_subscriptions.remove_all client_id }
  let st2 :=
    match mlookup st1.client_connections client_id with
    | some remaining =>
      foldRemove
        { st1 with client_connections := merase st1.client_connections client_id }
        remaining
    | none => st1
  { st2 with clients := merase st2.clients client_id }

/-- `connection_unsubscribe` (src 539-554): `remove_connection`, then
drop the id from the owning client's `client_connections` set, dropping
the set when it becomes empty. -/
def connection_unsubscribe (st : TcpConnectionStealer) (connection_id : ConnectionId) :
    TcpConnectionStealer :=
  match remove_connection st connection_id with
  | (st1, some client_id) =>
    match mlookup st1.client_connections client_id with
    | some conns =>
      let conns' := conns.filter (fun c => c ≠ connection_id)
      if conns'.isEmpty then
        { st1 with client_connections := merase st1.client_connections client_id }
      else
        { st1 with client_connections := minsert st1.client_connections client_id conns' }
    | none => st1
  | (st1, none) => st1

/-- `switch_protocol_version` (src 556-560): update the stored version
of a registered client, otherwise do nothing. -/
def switch_protocol_version (st : TcpConnectionStealer) (client_id : ClientId)
    (protocol_version : Nat) : TcpConnectionStealer :=
  match mlookup st.clients client_id with
  | some (chan, _) =>
    { st with clients := minsert st.clients client_id (chan, protocol_version) }
  | none => st

/-- `steal_connection` (src 290-330): allocate an id (`unwrap` on the
allocator result, hence a panic on exhaustion, src 297), split the
stream, register it in the per-connection and per-client tables, and
send `NewConnection`; a client missing from `clients` is demoted via
`close_client`. -/
def steal_connection (env : Env) (st : TcpConnectionStealer) (client_id : ClientId)
    (address : SocketAddr) (port : Port) (stream : Nat) : StepResult :=
  match next_index st.index_allocator with
  | none => ⟨st, [], .panic, none⟩
  | some (connection_id, alloc) =>
    let st1 := { st with index_allocator := alloc }
    match env.localAddr stream with
    | .error _ => ⟨st1, [], .err .io, none⟩
    | .ok local_address =>
      let st2 := { st1 with
        write_streams := minsert st1.write_streams connection_id stream
        read_streams := minsert st1.read_streams connection_id stream
        connection_clients := minsert st1.connection_clients connection_id client_id }
      let prev := (mlookup st2.client_connections client_id).getD []
      let st3 := { st2 with
        client_connections :=
          minsert st2.client_connections client_id (sinsert prev connection_id) }
      let new_connection :=
        DaemonTcp.NewConnection connection_id port address.port address.ip local_address
      match mlookup st3.clients client_id with
      | some (daemon_tx, _) =>
        let (sent, ok) := sendTo env daemon_tx new_connection
        ⟨st3, sent, if ok then .ok else .err .sendError, none⟩
      | none => ⟨close_client st3 client_id, [], .ok, none⟩

/-- `incoming_connection` (src 341-383): recover the original
destination, rewrite its ip to loopback, and dispatch on the port's
subscription: unfiltered ports steal the whole stream, filtered ports
allocate an id (`unwrap`, src 361) and spawn a filter task, and
unsubscribed ports silently drop the socket. -/
def incoming_connection (env : Env) (st : TcpConnectionStealer) (stream : Nat)
    (address : SocketAddr) : StepResult :=
  match env.origDst stream with
  | .error _ => ⟨st, [], .err .io, none⟩
  | .ok real0 =>
    let real_address : SocketAddr := { real0 with ip := localhostIp }
    match st.port_subscriptions.get real_address.port with
    | some (.Unfiltered client_id) =>
      steal_connection env st client_id address real_address.port stream
    | some (.Filtered _) =>
      match next_index st.index_allocator with
      | none => ⟨st, [], .panic, none⟩
      | some (connection_id, alloc) =>
        ⟨{ st with index_allocator := alloc }, [], .ok, some connection_id⟩
    | none => ⟨st, [], .ok, none⟩

/-- `forward_incoming_tcp_data` (src 253-287): map the chunk to `Data`,
end-of-stream to `Close`, and a read error to `Err(AgentError::IO)`
(propagated, nothing sent); deliver to the owning client; an unknown id
only logs. -/
def forward_incoming_tcp_data (env : Env) (st : TcpConnectionStealer)
    (connection_id : ConnectionId) (incoming_data : Option (Except Unit (List Nat))) :
    StepResult :=
  let daemon_tcp_message : Except AgentError DaemonTcp :=
    match incoming_data with
    | some (.ok bytes) => .ok (.Data connection_id bytes)
    | some (.error _) => .error .io
    | none => .ok (.Close connection_id)
  match daemon_tcp_message with
  | .error e => ⟨st, [], .err e, none⟩
  | .ok message =>
    match (mlookup st.connection_clients connection_id).bind
        (fun cid => mlookup st.clients cid) with
    | some (daemon_tx, _) =>
      let (sent, ok) := sendTo env daemon_tx message
      ⟨st, sent, if ok then .ok else .err .sendError, none⟩
    | none => ⟨st, [], .ok, none⟩

/-- `HTTP_FRAMED_VERSION.matches(version)`.  Modelled from the spec:
a fixed semver threshold; versions at or above it get the framed form. -/
def httpFramedMatches (version : Nat) : Bool := decide (1 ≤ version)

/-- `forward_stolen_http_request` (src 211-249): a closed request
channel is a hard error; for a registered client, record the client
under `http_connection_clients`, store the response oneshot, and send
the framed or fallback request form; a missing client only logs. -/
def forward_stolen_http_request (env : Env) (st : TcpConnectionStealer)
    (request : Option (HttpRequestData × Nat)) : StepResult :=
  match request with
  | none => ⟨st, [], .err .httpRequestReceiverClosed, none⟩
  | some (req, response_tx) =>
    match mlookup st.clients req.client_id with
    | some (daemon_tx, version) =>
      let prev := (mlookup st.http_connection_clients req.connection_id).getD []
      let st1 := { st with
        http_connection_clients :=
          minsert st.http_connection_clients req.connection_id (sinsert prev req.client_id)
        http_response_senders :=
          minsert st.http_response_senders (req.connection_id, req.request_id) response_tx }
      let message :=
        if httpFramedMatches version then
          DaemonTcp.HttpRequestFramed req.connection_id req.request_id req.payload
        else
          DaemonTcp.HttpRequest req.connection_id req.request_id req.payload
      let (sent, ok) := sendTo env daemon_tx message
      ⟨st1, sent, if ok then .ok else .err .sendError, none⟩
    | none => ⟨st, [], .ok, none⟩

/-- `send_message_to_single_client` (src 452-471): silently skip unknown
clients; on a send failure warn, demote the client via `close_client`,
and return the send error. -/
def send_message_to_single_client (env : Env) (st : TcpConnectionStealer)
    (client_id : ClientId) (message : DaemonTcp) : StepResult :=
  match mlookup st.clients client_id with
  | some (sender, _) =>
    if env.chanAlive sender then ⟨st, [(sender, message)], .ok, none⟩
    else ⟨close_client st client_id, [], .err .sendError, none⟩
  | none => ⟨st, [], .ok, none⟩

/-- `port_subscribe` (src 400-418): compile the filter (compile errors
map to `BadHttpFilterRegex` / `BadHttpFilterExRegex`), call
`port_subscriptions.add` only on success, then reply with exactly one
`SubscribeResult`. -/
def port_subscribe (env : Env) (st : TcpConnectionStealer) (client_id : ClientId)
    (port_steal : StealType) : StepResult :=
  let spec : Except ResponseError (Port × Option HttpFilter) :=
    match port_steal with
    | .All port => .ok (port, none)
    | .FilteredHttp port filter =>
      match env.regexNew ("(?i)" ++ filter) with
      | .ok _ => .ok (port, some (.newHeaderFilter filter))
      | .error err => .error (.badHttpFilterRegex filter err)
    | .FilteredHttpEx port filter =>
      match env.filterExTryFrom filter with
      | .ok _ => .ok (port, some (.ex filter))
      | .error err => .error (.badHttpFilterExRegex filter err)
  let stres :=
    match spec with
    | .ok (port, filter) =>
      let (ps, r) := st.port_subscriptions.add client_id port filter
      ({ st with port_subscriptions := ps }, r)
    | .error e => (st, .error e)
  send_message_to_single_client env stres.1 client_id (.SubscribeResult stres.2)

/-- `forward_data` (src 474-485): write the bytes to the connection's
write half (an io failure propagates); an unknown id only warns. -/
def forward_data (env : Env) (st : TcpConnectionStealer) (tcp_data : TcpData) : StepResult :=
  match mlookup st.write_streams tcp_data.connection_id with
  | some stream =>
    if env.writeOk stream then ⟨st, [], .ok, none⟩ else ⟨st, [], .err .io, none⟩
  | none => ⟨st, [], .ok, none⟩

/-- `http_response` (src 497-523): pop the oneshot sender stored under
`(connection_id, request_id)`; a missing key, a failed response
reconstruction, and a dropped receiver all only log.  Returns the next
state and the oneshot deliveries (receiver token, hyper response). -/
def http_response (env : Env) (st : TcpConnectionStealer) (response : HttpResponseFallback) :
    TcpConnectionStealer × List (Nat × Nat) :=
  match mlookup st.http_response_senders (response.connection_id, response.request_id) with
  | none => (st, [])
  | some response_tx =>
    let st1 := { st with
      http_response_senders :=
        merase st.http_response_senders (response.connection_id, response.request_id) }
    match env.intoHyper response.payload with
    | .error _ => (st1, [])
    | .ok hyper =>
      if env.oneshotAlive response_tx then (st1, [(response_tx, hyper)]) else (st1, [])

/-- `handle_command` (src 564-587): dispatch one `StealerCommand`. -/
def handle_command (env : Env) (st : TcpConnectionStealer) (client_id : ClientId)
    (command : Command) : StepResult :=
  match command with
  | .NewClient daemon_tx protocol_version =>
    ⟨{ st with clients := minsert st.clients client_id (daemon_tx, protocol_version) },
     [], .ok, none⟩
  | .ConnectionUnsubscribe connection_id =>
    ⟨connection_unsubscribe st connection_id, [], .ok, none⟩
  | .PortSubscribe port_steal => port_subscribe env st client_id port_steal
  | .PortUnsubscribe port =>
    ⟨{ st with port_subscriptions := st.port_subscriptions.remove client_id port },
     [], .ok, none⟩
  | .ClientClose => ⟨close_client st client_id, [], .ok, none⟩
  | .ResponseData tcp_data => forward_data env st tcp_data
  | .HttpResponse response =>
    let str := http_response env st response
    ⟨str.1, [], .ok, none⟩
  | .SwitchProtocolVersion version =>
    ⟨switch_protocol_version st client_id version, [], .ok, none⟩

/-- One readiness of the six-way `select!` in `start` (src 154-200). -/
inductive LoopEvent
  /-- `command_rx.recv()` yielded a command from the given client. -/
  | command (client_id : ClientId) (c : Command)
  /-- `command_rx.recv()` yielded `None`: the agent dropped the sender. -/
  | commandClosed
  /-- `port_subscriptions.next_connection()` yielded `Ok`. -/
  | accept (stream : Nat) (address : SocketAddr)
  /-- `port_subscriptions.next_connection()` yielded `Err`. -/
  | acceptError
  /-- `read_streams.next()` yielded `(connection_id, chunk)`. -/
  | readData (connection_id : ConnectionId) (chunk : Option (Except Unit (List Nat)))
  /-- `http_request_receiver.recv()` yielded a filter-task request. -/
  | httpRequest (r : HttpRequestData) (response_tx : Nat)
  /-- `http_request_receiver.recv()` yielded `None`. -/
  | httpRequestClosed
  /-- `http_connection_close_receiver.recv()` yielded an id. -/
  | httpClose (connection_id : ConnectionId)
  /-- The cancellation token fired. -/
  | cancelled
deriving DecidableEq

/-- The loop's configuration: the stealer state, the ghost set of live
filter-task connection ids (spawned, close not yet processed), the
ghost set of client ids the outer agent has ever assigned, whether the
loop is still running, and the history of messages delivered to client
channels (oldest first). -/
structure LoopState where
  st : TcpConnectionStealer
  filterConns : List ConnectionId
  usedClients : List ClientId
  running : Bool
  history : List (ChanId × DaemonTcp)
deriving DecidableEq

/-- The close fan-out of the `http_connection_close_receiver` branch
(src 185-193): send `Close` to each recorded client in turn; an
unregistered client only warns; a send failure aborts the iteration
(the `?` returns from `start`).  Returns the deliveries and whether the
fan-out completed. -/
def sendCloseFold (env : Env) (st : TcpConnectionStealer) (connection_id : ConnectionId) :
    List ClientId → List (ChanId × DaemonTcp) × Bool
  | [] => ([], true)
  | k :: rest =>
    match mlookup st.clients k with
    | some (chan, _) =>
      if env.chanAlive chan then
        let r := sendCloseFold env st connection_id rest
        ((chan, .Close connection_id) :: r.1, r.2)
      else ([], false)
    | none => sendCloseFold env st connection_id rest

/-- One iteration of the `start` loop (src 154-200).  Branch bodies are
the source functions above; `?` in a branch ends the loop, as does a
panic.  The step also encodes the environment's realizability
constraints, each marked below:
the `StreamMap` only yields ids of streams it holds (and drops a
stream at end-of-stream); the outer agent never reuses a client id in
`NewClient`; and, modelled from the spec (§4.D filter-task contract and
§3 invariant 4), request/close notifications only come from live filter
tasks, whose ids do not collide with live raw-TCP ids. -/
def loopStep (env : Env) (ls : LoopState) (ev : LoopEvent) : LoopState :=
  if ls.running = false then ls else
  match ev with
  | .command client_id c =>
    -- Realizability: the outer agent assigns globally fresh client ids,
    -- so NewClient never reuses an id.
    if (match c with
        | .NewClient _ _ => decide (client_id ∈ ls.usedClients)
        | _ => false) then ls
    else
      let r := handle_command env ls.st client_id c
      { st := r.state, filterConns := ls.filterConns,
        usedClients := match c with
          | .NewClient _ _ => client_id :: ls.usedClients
          | _ => ls.usedClients,
        running := r.res = .ok, history := ls.history ++ r.sent }
  | .commandClosed => { ls with running := false }
  | .accept stream address =>
    let r := incoming_connection env ls.st stream address
    { st := r.state,
      filterConns := match r.spawned with
        | some c => c :: ls.filterConns
        | none => ls.filterConns,
      usedClients := ls.usedClients,
      running := r.res = .ok,
      history := ls.history ++ r.sent }
  | .acceptError => { ls with running := false }
  | .readData connection_id chunk =>
    -- Realizability: the StreamMap yields only ids it currently holds.
    if (mlookup ls.st.read_streams connection_id).isNone then ls
    else
      -- The StreamMap removes a stream when it ends (chunk = none).
      let st0 := match chunk with
        | none => { ls.st with read_streams := merase ls.st.read_streams connection_id }
        | some _ => ls.st
      let r := forward_incoming_tcp_data env st0 connection_id chunk
      -- src 178-180: an error here is only logged; the loop continues.
      { st := r.state, filterConns := ls.filterConns,
        usedClients := ls.usedClients,
        running := ¬ (r.res = .panic), history := ls.history ++ r.sent }
  | .httpRequest req response_tx =>
    -- Realizability (spec-modelled, §4.D and §3 invariant 4): requests
    -- come only from live filter tasks, never under a live raw id.
    if ¬ (ls.filterConns.contains req.connection_id) ∨
        (mlookup ls.st.connection_clients req.connection_id).isSome then ls
    else
      let r := forward_stolen_http_request env ls.st (some (req, response_tx))
      { st := r.state, filterConns := ls.filterConns,
        usedClients := ls.usedClients,
        running := r.res = .ok, history := ls.history ++ r.sent }
  | .httpRequestClosed =>
    -- `forward_stolen_http_request(None)` returns
    -- `Err(HttpRequestReceiverClosed)`; the `?` ends the loop.
    { ls with running := false }
  | .httpClose connection_id =>
    -- Realizability (spec-modelled): close notifications come only from
    -- live filter tasks, never under a live raw id.
    if ¬ (ls.filterConns.contains connection_id) ∨
        (mlookup ls.st.connection_clients connection_id).isSome then ls
    else
      match mlookup ls.st.http_connection_clients connection_id with
      | some ks =>
        let st1 := { ls.st with
          http_connection_clients := merase ls.st.http_connection_clients connection_id }
        let r := sendCloseFold env st1 connection_id ks
        if r.2 then
          { st := { st1 with
              index_allocator := free_index st1.index_allocator connection_id },
            filterConns := ls.filterConns.filter (fun c => c ≠ connection_id),
            usedClients := ls.usedClients,
            running := true, history := ls.history ++ r.1 }
        else
          -- A send failure returns from `start` before `free_index`.
          { st := st1,
            filterConns := ls.filterConns.filter (fun c => c ≠ connection_id),
            usedClients := ls.usedClients,
            running := false, history := ls.history ++ r.1 }
      | none =>
        { st := { ls.st with
            index_allocator := free_index ls.st.index_allocator connection_id },
          filterConns := ls.filterConns.filter (fun c => c ≠ connection_id),
          usedClients := ls.usedClients,
          running := true, history := ls.history }
  | .cancelled => { ls with running := false }

/-- Run the loop over a sequence of events, each observed under its own
environment snapshot. -/
def runLoop (ls : LoopState) : List (Env × LoopEvent) → LoopState
  | [] => ls
  | (env, ev) :: rest => runLoop (loopStep env ls ev) rest

/-- The loop's initial configuration. -/
def initLoopState : LoopState := ⟨initialStealer, [], [], true, []⟩

/-- A history is well ordered when, per client channel, every `Data`
was preceded by a `NewConnection` with the same id, and every `Close`
by a `NewConnection` or an `HttpRequest`/`HttpRequestFramed` with the
same id.  `sN` accumulates (channel, id) pairs that saw
`NewConnection`, `sH` those that saw a request. -/
def orderedAux (sN sH : List (ChanId × ConnectionId)) :
    List (ChanId × DaemonTcp) → Bool
  | [] => true
  | (chan, m) :: rest =>
    match m with
    | .NewConnection c _ _ _ _ => orderedAux ((chan, c) :: sN) sH rest
    | .HttpRequest c _ _ => orderedAux sN ((chan, c) :: sH) rest
    | .HttpRequestFramed c _ _ => orderedAux sN ((chan, c) :: sH) rest
    | .Data c _ => decide ((chan, c) ∈ sN) && orderedAux sN sH rest
    | .Close c =>
      (decide ((chan, c) ∈ sN) || decide ((chan, c) ∈ sH)) && orderedAux sN sH rest
    | .SubscribeResult _ => orderedAux sN sH rest

/-- The C4 ordering property of a delivered-message history. -/
def ordered (h : List (ChanId × DaemonTcp)) : Bool := orderedAux [] [] h

/-- The (channel, id) pairs that saw a `NewConnection` in a history,
on top of an accumulator. -/
def collectNew (sN : List (ChanId × ConnectionId)) :
    List (ChanId × DaemonTcp) → List (ChanId × ConnectionId)
  | [] => sN
  | (chan, m) :: rest =>
    match m with
    | .NewConnection c _ _ _ _ => collectNew ((chan, c) :: sN) rest
    | _ => collectNew sN rest

/-- The (channel, id) pairs that saw an `HttpRequest` or
`HttpRequestFramed` in a history, on top of an accumulator. -/
def collectHttp (sH : List (ChanId × ConnectionId)) :
    List (ChanId × DaemonTcp) → List (ChanId × ConnectionId)
  | [] => sH
  | (chan, m) :: rest =>
    match m with
    | .HttpRequest c _ _ => collectHttp ((chan, c) :: sH) rest
    | .HttpRequestFramed c _ _ => collectHttp ((chan, c) :: sH) rest
    | _ => collectHttp sH rest

/-- The table part of the C4 invariant: (A) every raw connection's
owner already received its `NewConnection` on its current channel,
(B) every client recorded under `http_connection_clients` already
received a request from that connection on its current channel,
(C) `connection_clients` entries are backed by `client_connections`,
(D) owners of raw connections are registered, (E) registered clients
and (F) clients recorded under `http_connection_clients` are marked
used (the outer agent never reintroduces a used id). -/
def InvTables (st : TcpConnectionStealer) (used : List ClientId)
    (h : List (ChanId × DaemonTcp)) : Prop :=
  (∀ c k, mlookup st.connection_clients c = some k →
      ∀ chan v, mlookup st.clients k = some (chan, v) →
        (chan, c) ∈ collectNew [] h) ∧
  (∀ c ks, mlookup st.http_connection_clients c = some ks →
      ∀ k, k ∈ ks → ∀ chan v, mlookup st.clients k = some (chan, v) →
        (chan, c) ∈ collectHttp [] h) ∧
  (∀ c k, mlookup st.connection_clients c = some k →
      ∃ l, mlookup st.client_connections k = some l ∧ c ∈ l) ∧
  (∀ c k, mlookup st.connection_clients c = some k →
      (mlookup st.clients k).isSome = true) ∧
  (∀ k, (mlookup st.clients k).isSome = true → k ∈ used) ∧
  (∀ c ks, mlookup st.http_connection_clients c = some ks →
      ∀ k, k ∈ ks → k ∈ used)

/-- The inductive invariant behind the C4 ordering theorem: the history
is well ordered and, while the loop runs, the tables satisfy
`InvTables`. -/
def LoopInv (ls : LoopState) : Prop :=
  ordered ls.history = true ∧
  (ls.running = true → InvTables ls.st ls.usedClients ls.history)

/-- An environment where every channel and receiver is healthy, regexes
compile, `orig_dst` reports port 80, and the local address is 77. -/
def envAllGood : Env :=
  { chanAlive := fun _ => true
    oneshotAlive := fun _ => true
    regexNew := fun _ => .ok ()
    filterExTryFrom := fun _ => .ok ()
    origDst := fun _ => .ok ⟨9, 80⟩
    localAddr := fun _ => .ok 77
    intoHyper := fun p => .ok p
    writeOk := fun _ => true }

/-- `envAllGood` with every client channel dropped. -/
def envDeadChan : Env := { envAllGood with chanAlive := fun _ => false }

/-- `envAllGood` with failing filter compilation. -/
def envBadFilter : Env :=
  { envAllGood with
    regexNew := fun _ => .error "regex parse failure"
    filterExTryFrom := fun _ => .error "filter parse failure" }

/-- A stealer with one registered client (id 1, channel 10). -/
def stOneClient : TcpConnectionStealer :=
  { initialStealer with clients := [(1, (10, 0))] }

/-- A stealer whose port 80 is stolen unfiltered by client 3, which is
not registered in `clients` (the C5 race). -/
def stC5race : TcpConnectionStealer :=
  { initialStealer with port_subscriptions := ⟨[(80, .Unfiltered 3)], [80]⟩ }

/-- A filtered connection 3 with a pending request from client 1, as
left behind by a filter task: nothing in the raw-TCP tables. -/
def stFiltered3 : TcpConnectionStealer :=
  { initialStealer with
    index_allocator := [3]
    http_connection_clients := [(3, [1])]
    http_response_senders := [((3, 0), 9)] }

/-- A stealer whose allocator has all 100 ids live and whose port 80 is
stolen unfiltered by registered client 1. -/
def stExhausted : TcpConnectionStealer :=
  { initialStealer with
    port_subscriptions := ⟨[(80, .Unfiltered 1)], [80]⟩
    clients := [(1, (10, 1))]
    index_allocator := List.range 100 }

/-- A running loop over `stExhausted`. -/
def lsExhausted : LoopState := ⟨stExhausted, [], [1], true, []⟩

/-- Client 1 subscribes port 80 whole, a peer connects, and the raw
connection 0 is established. -/
def traceEstablish : List (Env × LoopEvent) :=
  [(envAllGood, .command 1 (.NewClient 10 1)),
   (envAllGood, .command 1 (.PortSubscribe (.All 80))),
   (envAllGood, .accept 5 ⟨1234, 555⟩)]

/-- `traceEstablish`, then the read stream yields an error for
connection 0. -/
def traceReadError : List (Env × LoopEvent) :=
  traceEstablish ++ [(envAllGood, .readData 0 (some (.error ())))]

/-- `traceReadError`, then the read stream ends. -/
def traceReadErrorEof : List (Env × LoopEvent) :=
  traceReadError ++ [(envAllGood, .readData 0 none)]

/-- `traceEstablish`, then client 1 unsubscribes connection 0 and the
agent closes the command channel, ending the loop. -/
def traceUnsubscribe : List (Env × LoopEvent) :=
  traceEstablish ++
    [(envAllGood, .command 1 (.ConnectionUnsubscribe 0)),
     (envAllGood, .commandClosed)]

/-- Client 1 registers, then its channel dies just as its
`PortSubscribe` reply is sent. -/
def traceDeadSubscribe : List (Env × LoopEvent) :=
  [(envAllGood, .command 1 (.NewClient 10 1)),
   (envDeadChan, .command 1 (.PortSubscribe (.All 80)))]

/-- The stealer state right after `traceEstablish`: client 1 (channel
10) owns live raw connection 0 on port 80. -/
def stRawLive : TcpConnectionStealer :=
  { initialStealer with
    port_subscriptions := ⟨[(80, .Unfiltered 1)], [80]⟩
    clients := [(1, (10, 1))]
    index_allocator := [0]
    write_streams := [(0, 5)]
    read_streams := [(0, 5)]
    connection_clients := [(0, 1)]
    client_connections := [(1, [0])] }

/-- A running loop over `stOneClient`. -/
def lsOneClient : LoopState := ⟨stOneClient, [], [1], true, []⟩

/-- A running loop over `stRawLive`. -/
def lsRawLive : LoopState := ⟨stRawLive, [], [1], true, []⟩

section MapLemmas

variable {K V : Type} [DecidableEq K]

theorem mlookup_eq_none_iff {m : List (K × V)} {k : K} :
    mlookup m k = none ↔ ∀ p ∈ m, p.1 ≠ k := by
  induction m with
  | nil => simp [mlookup]
  | cons q rest ih =>
    obtain ⟨ka, v⟩ := q
    by_cases hk : ka = k
    · simp [mlookup, hk]
    · simp [mlookup, hk, ih]

theorem merase_eq_self {m : List (K × V)} {k : K} (h : mlookup m k = none) :
    merase m k = m := by
  have hall := mlookup_eq_none_iff.mp h
  show m.filter _ = m
  rw [List.filter_eq_self]
  intro p hp
  simpa using hall p hp

theorem mlookup_merase_self (m : List (K × V)) (k : K) :
    mlookup (merase m k) k = none := by
  rw [mlookup_eq_none_iff]
  intro p hp
  simpa using List.of_mem_filter hp

theorem mlookup_merase_ne {k' k : K} (m : List (K × V)) (h : k' ≠ k) :
    mlookup (merase m k) k' = mlookup m k' := by
  induction m with
  | nil => rfl
  | cons q rest ih =>
    obtain ⟨ka, v⟩ := q
    by_cases hk : ka = k
    · have hstep : merase ((ka, v) :: rest) k = merase rest k := by
        simp only [merase, List.filter_cons]
        simp [hk]
      have hka : ¬ (ka = k') := by
        intro hc
        rw [← hc] at h
        exact h hk
      rw [hstep, ih]
      simp [mlookup, hka]
    · have hstep : merase ((ka, v) :: rest) k = (ka, v) :: merase rest k := by
        simp only [merase, List.filter_cons]
        simp [hk]
      rw [hstep]
      by_cases hk2 : ka = k'
      · simp [mlookup, hk2]
      · simp [mlookup, hk2, ih]

theorem mlookup_minsert_self (m : List (K × V)) (k : K) (v : V) :
    mlookup (minsert m k v) k = some v := by
  simp [minsert, mlookup]

theorem mlookup_minsert_ne {k' k : K} (m : List (K × V)) (v : V) (h : k' ≠ k) :
    mlookup (minsert m k v) k' = mlookup m k' := by
  have hkk : ¬ (k = k') := fun hc => h hc.symm
  simp only [minsert, mlookup, if_neg hkk]
  exact mlookup_merase_ne m h

theorem merase_merase (m : List (K × V)) (k : K) :
    merase (merase m k) k = merase m k :=
  merase_eq_self (mlookup_merase_self m k)

theorem merase_minsert (m : List (K × V)) (k : K) (v : V) :
    merase (minsert m k v) k = merase m k := by
  have hstep : merase (minsert m k v) k = merase (merase m k) k := by
    simp only [minsert, merase, List.filter_cons]
    simp
  rw [hstep, merase_merase]

end MapLemmas

theorem filter_ne_of_not_mem {a : List Nat} {c : Nat} (h : ¬ c ∈ a) :
    a.filter (fun j => j ≠ c) = a := by
  rw [List.filter_eq_self]
  intro x hx
  simp only [ne_eq, decide_not, Bool.not_eq_true', decide_eq_false_iff_not]
  intro hc
  exact h (hc ▸ hx)

theorem next_index_shape {a : List ConnectionId} {c : ConnectionId}
    {a' : List ConnectionId} (h : next_index a = some (c, a')) :
    ¬ c ∈ a ∧ a' = c :: a := by
  unfold next_index at h
  cases hf : (List.range indexAllocatorCap).find? (fun i => !(a.contains i)) with
  | none =>
    rw [hf] at h
    simp at h
  | some i =>
    rw [hf] at h
    have hp := List.find?_some hf
    simp only [Option.map_some', Option.some.injEq, Prod.mk.injEq] at h
    obtain ⟨hc, ha⟩ := h
    subst hc
    subst ha
    refine ⟨?_, rfl⟩
    intro hmem
    rw [Bool.not_eq_true'] at hp
    simp at hp
    exact hp hmem

/-- Freeing a freshly allocated id restores the allocator. -/
theorem free_index_fresh {a : List ConnectionId} {c : ConnectionId} (h : ¬ c ∈ a) :
    free_index (c :: a) c = a := by
  show List.filter _ (c :: a) = a
  rw [List.filter_cons, if_neg (by simp)]
  exact filter_ne_of_not_mem h

/-- C7: handling `HttpResponse` pops the oneshot sink stored under
`(connection_id, request_id)`; when present and reconstructible the
response is forwarded into the sink exactly when its receiver is alive;
a missing key or dropped receiver only logs; the handler never returns
an error (so it never ends the loop) and sends nothing on client
channels. -/
theorem C7_http_response_pops_and_never_fails (env : Env) (st : TcpConnectionStealer)
    (client_id : ClientId) (response : HttpResponseFallback) :
    (handle_command env st client_id (.HttpResponse response)).res = .ok ∧
    (handle_command env st client_id (.HttpResponse response)).sent = [] ∧
    (http_response env st response).1 =
      { st with http_response_senders :=
          merase st.http_response_senders (response.connection_id, response.request_id) } ∧
    (http_response env st response).2 =
      (match mlookup st.http_response_senders (response.connection_id, response.request_id),
             env.intoHyper response.payload with
       | some tx, .ok hyper => if env.oneshotAlive tx then [(tx, hyper)] else []
       | some _, .error _ => []
       | none, _ => []) := by
  refine ⟨rfl, rfl, ?_, ?_⟩
  · cases hl : mlookup st.http_response_senders (response.connection_id, response.request_id) with
    | none => simp [http_response, hl, merase_eq_self hl]
    | some tx =>
      cases hh : env.intoHyper response.payload with
      | error e => simp [http_response, hl, hh]
      | ok hyper =>
        by_cases ha : env.oneshotAlive tx
        · simp [http_response, hl, hh, ha]
        · simp [http_response, hl, hh, ha]
  · cases hl : mlookup st.http_response_senders (response.connection_id, response.request_id) with
    | none => simp [http_response, hl]
    | some tx =>
      cases hh : env.intoHyper response.payload with
      | error e => simp [http_response, hl, hh]
      | ok hyper =>
        by_cases ha : env.oneshotAlive tx
        · simp [http_response, hl, hh, ha]
        · simp [http_response, hl, hh, ha]

/-- C8: an accepted connection whose rewritten original destination port
has no subscription returns success, sends nothing, allocates nothing,
and leaves the whole state unchanged. -/
theorem C8_unsubscribed_port_drops_silently (env : Env) (st : TcpConnectionStealer)
    (stream : Nat) (address real : SocketAddr)
    (hod : env.origDst stream = .ok real)
    (hget : st.port_subscriptions.get real.port = none) :
    incoming_connection env st stream address = ⟨st, [], .ok, none⟩ := by
  simp [incoming_connection, hod, hget]

/-- C10: `SwitchProtocolVersion` is a silent no-op for an unknown
client; for a registered client it rewrites only that client's stored
version, keeping its sender channel and every other `clients` entry. -/
theorem C10_switch_protocol_version_frame (st : TcpConnectionStealer)
    (client_id : ClientId) (version : Nat) :
    (mlookup st.clients client_id = none →
      switch_protocol_version st client_id version = st) ∧
    (∀ chan v, mlookup st.clients client_id = some (chan, v) →
      switch_protocol_version st client_id version =
        { st with clients := minsert st.clients client_id (chan, version) } ∧
      mlookup (switch_protocol_version st client_id version).clients client_id =
        some (chan, version) ∧
      ∀ k, k ≠ client_id →
        mlookup (switch_protocol_version st client_id version).clients k =
          mlookup st.clients k) := by
  constructor
  · intro h
    simp [switch_protocol_version, h]
  · intro chan v h
    refine ⟨by simp [switch_protocol_version, h], ?_, ?_⟩
    · simp [switch_protocol_version, h, mlookup_minsert_self]
    · intro k hk
      simp [switch_protocol_version, h, mlookup_minsert_ne _ _ hk]

/-- C8 witness: a fresh stealer with no subscriptions. -/
theorem C8_witness :
    incoming_connection envAllGood initialStealer 5 ⟨1234, 555⟩ =
      ⟨initialStealer, [], .ok, none⟩ :=
  C8_unsubscribed_port_drops_silently envAllGood initialStealer 5 ⟨1234, 555⟩ ⟨9, 80⟩
    rfl rfl

/-- C10 witness: both the registered and the unknown-client case at
`stOneClient`. -/
theorem C10_witness :
    switch_protocol_version stOneClient 1 5 =
      { stOneClient with clients := minsert stOneClient.clients 1 (10, 5) } ∧
    switch_protocol_version stOneClient 2 5 = stOneClient :=
  ⟨((C10_switch_protocol_version_frame stOneClient 1 5).2 10 0 rfl).1,
   (C10_switch_protocol_version_frame stOneClient 2 5).1 rfl⟩

/-- C5: on an unfiltered accept whose subscription client is missing
from `clients` (race against client close), the freshly allocated id is
freed again, every per-connection and per-client table entry just added
for it is removed, and the client is closed: the final state differs
from the initial one only by `close_client`'s subscription cleanup,
nothing is sent, and the call returns success. -/
theorem C5_absent_client_revokes_allocation (env : Env) (st : TcpConnectionStealer)
    (client_id : ClientId) (address : SocketAddr) (port : Port) (stream la : Nat)
    (connection_id : ConnectionId) (alloc : List ConnectionId)
    (hnext : next_index st.index_allocator = some (connection_id, alloc))
    (hla : env.localAddr stream = .ok la)
    (hclient : mlookup st.clients client_id = none)
    (hcc : mlookup st.client_connections client_id = none)
    (hws : mlookup st.write_streams connection_id = none)
    (hrs : mlookup st.read_streams connection_id = none)
    (hcl : mlookup st.connection_clients connection_id = none) :
    steal_connection env st client_id address port stream =
      ⟨{ st with port_subscriptions := st.port_subscriptions.remove_all client_id },
       [], .ok, none⟩ := by
  obtain ⟨hfresh, hallo⟩ := next_index_shape hnext
  subst hallo
  simp only [steal_connection, hnext, hla, hclient, close_client, foldRemove,
    remove_connection, mlookup_minsert_self, merase_minsert, hcc, Option.getD_none,
    sinsert, List.not_mem_nil, if_false, List.foldl_cons, List.foldl_nil,
    merase_eq_self hws, merase_eq_self hrs, merase_eq_self hcl, merase_eq_self hcc,
    merase_eq_self hclient, free_index_fresh hfresh]

/-- C5 witness: the race state `stC5race` with client 3 absent. -/
theorem C5_witness :
    steal_connection envAllGood stC5race 3 ⟨1234, 555⟩ 80 5 =
      ⟨{ stC5race with port_subscriptions := stC5race.port_subscriptions.remove_all 3 },
       [], .ok, none⟩ :=
  C5_absent_client_revokes_allocation envAllGood stC5race 3 ⟨1234, 555⟩ 80 5 77 0 [0]
    rfl rfl rfl rfl rfl rfl rfl

/-- C6: a `PortSubscribe` whose filter fails to compile maps the error
to `BadHttpFilterRegex` (header form) or `BadHttpFilterExRegex`
(extended form), replies to the subscribing client with exactly one
`SubscribeResult` carrying that error, and leaves the whole state — in
particular `port_subscriptions`, so no subscription or redirection —
unchanged, since `add` is never reached. -/
theorem C6_bad_filter_compile_rejected (env : Env) (st : TcpConnectionStealer)
    (client_id : ClientId) (chan : ChanId) (v : Nat) (port : Port) (filter err : String)
    (hcl : mlookup st.clients client_id = some (chan, v))
    (halive : env.chanAlive chan = true) :
    (env.regexNew ("(?i)" ++ filter) = .error err →
      port_subscribe env st client_id (.FilteredHttp port filter) =
        ⟨st, [(chan, .SubscribeResult (.error (.badHttpFilterRegex filter err)))],
         .ok, none⟩) ∧
    (env.filterExTryFrom filter = .error err →
      port_subscribe env st client_id (.FilteredHttpEx port filter) =
        ⟨st, [(chan, .SubscribeResult (.error (.badHttpFilterExRegex filter err)))],
         .ok, none⟩) := by
  constructor
  · intro hre
    simp [port_subscribe, hre, send_message_to_single_client, hcl, halive, sendTo]
  · intro hex
    simp [port_subscribe, hex, send_message_to_single_client, hcl, halive, sendTo]

/-- C6 witness: both filter forms failing to compile against
`stOneClient`. -/
theorem C6_witness :
    port_subscribe envBadFilter stOneClient 1 (.FilteredHttp 80 "(unclosed") =
      ⟨stOneClient,
       [(10, .SubscribeResult (.error
          (.badHttpFilterRegex "(unclosed" "regex parse failure")))], .ok, none⟩ ∧
    port_subscribe envBadFilter stOneClient 1 (.FilteredHttpEx 80 "(unclosed") =
      ⟨stOneClient,
       [(10, .SubscribeResult (.error
          (.badHttpFilterExRegex "(unclosed" "filter parse failure")))], .ok, none⟩ :=
  ⟨(C6_bad_filter_compile_rejected envBadFilter stOneClient 1 10 0 80 "(unclosed"
      "regex parse failure" rfl rfl).1 rfl,
   (C6_bad_filter_compile_rejected envBadFilter stOneClient 1 10 0 80 "(unclosed"
      "filter parse failure" rfl rfl).2 rfl⟩

/-- C2 counterexample: with raw connection 0 live (established by
`traceEstablish`), a read error produces no `Close` and frees nothing
(the history is unchanged and id 0 stays allocated), and even after
end-of-stream — which does send `Close` — id 0 is still allocated,
refuting both "sends Close ... and frees c" (error case) and "frees c"
(end-of-stream case). -/
theorem C2_counterexample :
    (runLoop initLoopState traceReadError).history =
      [(10, .SubscribeResult (.ok ())), (10, .NewConnection 0 80 555 1234 77)] ∧
    (runLoop initLoopState traceReadError).st.index_allocator = [0] ∧
    (runLoop initLoopState traceReadErrorEof).history =
      [(10, .SubscribeResult (.ok ())), (10, .NewConnection 0 80 555 1234 77),
       (10, .Close 0)] ∧
    (runLoop initLoopState traceReadErrorEof).st.index_allocator = [0] :=
  ⟨rfl, rfl, rfl, rfl⟩

/-- C2 amended: when the read stream yields an error for a connection,
the handler logs and returns `Err(AgentError::IO)` — no `Close` is sent
by it and the state (in particular the allocator) is untouched; the
event loop merely logs this error.  When it yields end-of-stream, the
handler sends `Close` to the owning client but again leaves the state
untouched: the id is not freed. -/
theorem C2_read_error_and_eof (env : Env) (st : TcpConnectionStealer)
    (connection_id : ConnectionId) :
    (∀ e, forward_incoming_tcp_data env st connection_id (some (.error e)) =
        ⟨st, [], .err .io, none⟩) ∧
    (forward_incoming_tcp_data env st connection_id none).state = st ∧
    (∀ k chan v, mlookup st.connection_clients connection_id = some k →
      mlookup st.clients k = some (chan, v) → env.chanAlive chan = true →
      forward_incoming_tcp_data env st connection_id none =
        ⟨st, [(chan, .Close connection_id)], .ok, none⟩) := by
  refine ⟨fun e => rfl, ?_, ?_⟩
  · simp only [forward_incoming_tcp_data]
    cases hb : (mlookup st.connection_clients connection_id).bind
        (fun cid => mlookup st.clients cid) with
    | none => simp [hb]
    | some p =>
      obtain ⟨chan, v⟩ := p
      by_cases ha : env.chanAlive chan
      · simp [hb, sendTo, ha]
      · simp [hb, sendTo, ha]
  · intro k chan v hk hc ha
    simp [forward_incoming_tcp_data, hk, hc, ha, sendTo, Option.bind]

/-- C2 witness for the amended statement, at `stRawLive`. -/
theorem C2_witness :
    forward_incoming_tcp_data envAllGood stRawLive 0 (some (.error ())) =
      ⟨stRawLive, [], .err .io, none⟩ ∧
    forward_incoming_tcp_data envAllGood stRawLive 0 none =
      ⟨stRawLive, [(10, .Close 0)], .ok, none⟩ :=
  ⟨(C2_read_error_and_eof envAllGood stRawLive 0).1 (),
   (C2_read_error_and_eof envAllGood stRawLive 0).2.2 1 10 1 rfl rfl rfl⟩

/-- C3 counterexample: client 1 registers, then its channel dies; the
`SubscribeResult` send fails, the client is demoted, and the loop
terminates — refuting "no send failure on a single client's channel
terminates the stealer loop". -/
theorem C3_counterexample :
    (runLoop initLoopState traceDeadSubscribe).running = false ∧
    mlookup (runLoop initLoopState traceDeadSubscribe).st.clients 1 = none :=
  ⟨rfl, rfl⟩

/-- C3 amended: a failed send in `send_message_to_single_client` does
demote the failing client via `close_client`, but it also returns the
send error, which the command branch of `start` propagates — the loop
terminates.  Only the raw-data forwarding branch survives a send
failure (the loop keeps running there). -/
theorem C3_send_failure_demotes_but_kills_loop (env : Env) (ls : LoopState)
    (client_id : ClientId) (chan : ChanId) (v : Nat) (message : DaemonTcp) (port : Port)
    (connection_id : ConnectionId) :
    (∀ st : TcpConnectionStealer, mlookup st.clients client_id = some (chan, v) →
      env.chanAlive chan = false →
      send_message_to_single_client env st client_id message =
        ⟨close_client st client_id, [], .err .sendError, none⟩) ∧
    (ls.running = true → mlookup ls.st.clients client_id = some (chan, v) →
      env.chanAlive chan = false →
      (loopStep env ls (.command client_id (.PortSubscribe (.All port)))).running =
        false) ∧
    (∀ s bytes, ls.running = true →
      mlookup ls.st.read_streams connection_id = some s →
      (loopStep env ls (.readData connection_id (some (.ok bytes)))).running = true) := by
  refine ⟨?_, ?_, ?_⟩
  · intro st hcl hdead
    simp [send_message_to_single_client, hcl, hdead]
  · intro hrun hcl hdead
    unfold loopStep
    rw [hrun]
    simp [handle_command, port_subscribe, send_message_to_single_client, hcl, hdead]
  · intro s bytes hrun hs
    unfold loopStep
    rw [hrun]
    simp only [hs, forward_incoming_tcp_data]
    cases hb2 : (mlookup ls.st.connection_clients connection_id).bind
        (fun cid => mlookup ls.st.clients cid) with
    | none => simp [hb2]
    | some p =>
      obtain ⟨chan2, v2⟩ := p
      by_cases ha : env.chanAlive chan2
      · simp [hb2, sendTo, ha]
      · simp [hb2, sendTo, ha]

/-- C3 witness for the amended statement. -/
theorem C3_witness :
    send_message_to_single_client envDeadChan stOneClient 1 (.Close 0) =
      ⟨close_client stOneClient 1, [], .err .sendError, none⟩ ∧
    (loopStep envDeadChan lsOneClient (.command 1 (.PortSubscribe (.All 80)))).running =
      false ∧
    (loopStep envDeadChan lsRawLive (.readData 0 (some (.ok [1])))).running = true :=
  ⟨(C3_send_failure_demotes_but_kills_loop envDeadChan lsOneClient 1 10 0
      (.Close 0) 80 0).1 stOneClient rfl rfl,
   (C3_send_failure_demotes_but_kills_loop envDeadChan lsOneClient 1 10 0
      (.Close 0) 80 0).2.1 rfl rfl rfl,
   (C3_send_failure_demotes_but_kills_loop envDeadChan lsRawLive 1 10 1
      (.Close 0) 80 0).2.2 5 [1] rfl rfl⟩

/-- C9 counterexample: unsubscribing filtered connection 3 leaves its
entries in `http_connection_clients` and `http_response_senders`
untouched, refuting "removes connection_id from all tables referencing
it". -/
theorem C9_counterexample :
    (connection_unsubscribe stFiltered3 3).http_connection_clients = [(3, [1])] ∧
    (connection_unsubscribe stFiltered3 3).http_response_senders = [((3, 0), 9)] :=
  ⟨rfl, rfl⟩

/-- C9 amended: `ConnectionUnsubscribe` removes the id from
`write_streams`, `read_streams` and `connection_clients`, frees the id,
and removes the id from the owning client's `client_connections` set
(dropping the set when emptied); but entries under the id in
`http_connection_clients` and `http_response_senders` are not removed,
and `clients` and `port_subscriptions` are untouched. -/
theorem C9_connection_unsubscribe_cleanup (st : TcpConnectionStealer)
    (connection_id : ConnectionId) :
    ((connection_unsubscribe st connection_id).write_streams =
        merase st.write_streams connection_id ∧
     (connection_unsubscribe st connection_id).read_streams =
        merase st.read_streams connection_id ∧
     (connection_unsubscribe st connection_id).index_allocator =
        free_index st.index_allocator connection_id ∧
     (connection_unsubscribe st connection_id).connection_clients =
        merase st.connection_clients connection_id ∧
     (connection_unsubscribe st connection_id).http_connection_clients =
        st.http_connection_clients ∧
     (connection_unsubscribe st connection_id).http_response_senders =
        st.http_response_senders ∧
     (connection_unsubscribe st connection_id).clients = st.clients ∧
     (connection_unsubscribe st connection_id).port_subscriptions =
        st.port_subscriptions) ∧
    (∀ k conns, mlookup st.connection_clients connection_id = some k →
      mlookup st.client_connections k = some conns →
      mlookup (connection_unsubscribe st connection_id).client_connections k =
        (if (conns.filter (fun c => c ≠ connection_id)).isEmpty then none
         else some (conns.filter (fun c => c ≠ connection_id)))) := by
  constructor
  · cases hk : mlookup st.connection_clients connection_id with
    | none => simp [connection_unsubscribe, remove_connection, hk]
    | some k =>
      cases hc : mlookup st.client_connections k with
      | none => simp [connection_unsubscribe, remove_connection, hk, hc]
      | some conns =>
        by_cases he : (conns.filter (fun c => c ≠ connection_id)).isEmpty
        · simp only [connection_unsubscribe, remove_connection, hk, hc]
          rw [if_pos he]
          exact ⟨rfl, rfl, rfl, rfl, rfl, rfl, rfl, rfl⟩
        · simp only [connection_unsubscribe, remove_connection, hk, hc]
          rw [if_neg he]
          exact ⟨rfl, rfl, rfl, rfl, rfl, rfl, rfl, rfl⟩
  · intro k conns hk hc
    by_cases he : (conns.filter (fun c => c ≠ connection_id)).isEmpty
    · simp only [connection_unsubscribe, remove_connection, hk, hc]
      rw [if_pos he, if_pos he]
      exact mlookup_merase_self _ _
    · simp only [connection_unsubscribe, remove_connection, hk, hc]
      rw [if_neg he, if_neg he]
      exact mlookup_minsert_self _ _ _

/-- C9 witness for the amended statement, at `stRawLive`. -/
theorem C9_witness :
    (connection_unsubscribe stRawLive 0).http_connection_clients =
      stRawLive.http_connection_clients ∧
    mlookup (connection_unsubscribe stRawLive 0).client_connections 1 = none := by
  refine ⟨(C9_connection_unsubscribe_cleanup stRawLive 0).1.2.2.2.2.1, ?_⟩
  have h := (C9_connection_unsubscribe_cleanup stRawLive 0).2 1 [0] rfl rfl
  simpa using h

/-- C1: at the failing input — all 100 connection ids live — the
unfiltered accept path does not produce a typed, recoverable error:
`index_allocator.next_index().unwrap()` (src 297) panics, so the
stealer task aborts rather than continuing; no table entry is created
and nothing is sent beforehand. -/
theorem C1_exhaustion_panics_instead_of_typed_error :
    steal_connection envAllGood stExhausted 1 ⟨1234, 555⟩ 80 5 =
      ⟨stExhausted, [], .panic, none⟩ ∧
    (runLoop lsExhausted [(envAllGood, .accept 5 ⟨1234, 555⟩)]).running = false ∧
    (runLoop lsExhausted [(envAllGood, .accept 5 ⟨1234, 555⟩)]).st = stExhausted :=
  ⟨rfl, rfl, rfl⟩

/-- C4 counterexample: a complete run in which client 1 received
`NewConnection` for id 0 and the loop then terminated with no `Close`
for id 0 ever delivered — `ConnectionUnsubscribe` removes the
connection without emitting a `Close` — refuting "exactly one Close is
eventually emitted per id". -/
theorem C4_counterexample :
    (runLoop initLoopState traceUnsubscribe).history =
      [(10, .SubscribeResult (.ok ())), (10, .NewConnection 0 80 555 1234 77)] ∧
    (runLoop initLoopState traceUnsubscribe).running = false :=
  ⟨rfl, rfl⟩

section MoreMapLemmas

variable {K V : Type} [DecidableEq K]

theorem mlookup_merase_some {m : List (K × V)} {k k' : K} {v : V}
    (h : mlookup (merase m k) k' = some v) : mlookup m k' = some v := by
  by_cases hk : k' = k
  · subst hk
    rw [mlookup_merase_self] at h
    exact absurd h (by simp)
  · rwa [mlookup_merase_ne m hk] at h

theorem mlookup_minsert_cases {m : List (K × V)} {k k' : K} {v w : V}
    (h : mlookup (minsert m k v) k' = some w) :
    (k' = k ∧ w = v) ∨ (k' ≠ k ∧ mlookup m k' = some w) := by
  by_cases hk : k' = k
  · subst hk
    rw [mlookup_minsert_self] at h
    exact Or.inl ⟨rfl, by injection h with h2; exact h2.symm⟩
  · rw [mlookup_minsert_ne m v hk] at h
    exact Or.inr ⟨hk, h⟩

theorem mem_sinsert_self {A : Type} [DecidableEq A] (s : List A) (a : A) :
    a ∈ sinsert s a := by
  by_cases hm : a ∈ s
  · simp [sinsert, hm]
  · simp [sinsert, hm]

theorem mem_sinsert_of_mem {A : Type} [DecidableEq A] {s : List A} {b : A} (a : A)
    (h : b ∈ s) : b ∈ sinsert s a := by
  by_cases hm : a ∈ s
  · simpa [sinsert, hm] using h
  · simp [sinsert, hm, h]

theorem mem_sinsert_elim {A : Type} [DecidableEq A] {s : List A} {a b : A}
    (h : b ∈ sinsert s a) : b = a ∨ b ∈ s := by
  by_cases hm : a ∈ s
  · simp [sinsert, hm] at h
    exact Or.inr h
  · simp [sinsert, hm] at h
    simpa using h

end MoreMapLemmas

theorem collectNew_append (sN : List (ChanId × ConnectionId))
    (h h' : List (ChanId × DaemonTcp)) :
    collectNew sN (h ++ h') = collectNew (collectNew sN h) h' := by
  induction h generalizing sN with
  | nil => rfl
  | cons q rest ih =>
    obtain ⟨chan, m⟩ := q
    cases m <;> simp [collectNew, ih]

theorem collectHttp_append (sH : List (ChanId × ConnectionId))
    (h h' : List (ChanId × DaemonTcp)) :
    collectHttp sH (h ++ h') = collectHttp (collectHttp sH h) h' := by
  induction h generalizing sH with
  | nil => rfl
  | cons q rest ih =>
    obtain ⟨chan, m⟩ := q
    cases m <;> simp [collectHttp, ih]

theorem mem_collectNew_of_acc {p : ChanId × ConnectionId}
    (sN : List (ChanId × ConnectionId)) (h : List (ChanId × DaemonTcp))
    (hp : p ∈ sN) : p ∈ collectNew sN h := by
  induction h generalizing sN with
  | nil => exact hp
  | cons q rest ih =>
    obtain ⟨chan, m⟩ := q
    cases m with
    | NewConnection c p1 p2 p3 p4 =>
      simp only [collectNew]
      exact ih _ (List.mem_cons_of_mem _ hp)
    | HttpRequest c r pay => exact ih _ hp
    | HttpRequestFramed c r pay => exact ih _ hp
    | Data c bs => exact ih _ hp
    | Close c => exact ih _ hp
    | SubscribeResult r => exact ih _ hp

theorem mem_collectHttp_of_acc {p : ChanId × ConnectionId}
    (sH : List (ChanId × ConnectionId)) (h : List (ChanId × DaemonTcp))
    (hp : p ∈ sH) : p ∈ collectHttp sH h := by
  induction h generalizing sH with
  | nil => exact hp
  | cons q rest ih =>
    obtain ⟨chan, m⟩ := q
    cases m with
    | HttpRequest c r pay =>
      simp only [collectHttp]
      exact ih _ (List.mem_cons_of_mem _ hp)
    | HttpRequestFramed c r pay =>
      simp only [collectHttp]
      exact ih _ (List.mem_cons_of_mem _ hp)
    | NewConnection c p1 p2 p3 p4 => exact ih _ hp
    | Data c bs => exact ih _ hp
    | Close c => exact ih _ hp
    | SubscribeResult r => exact ih _ hp

theorem mem_collectNew_append {p : ChanId × ConnectionId}
    (h h' : List (ChanId × DaemonTcp)) (hp : p ∈ collectNew [] h) :
    p ∈ collectNew [] (h ++ h') := by
  rw [collectNew_append]
  exact mem_collectNew_of_acc _ _ hp

theorem mem_collectHttp_append {p : ChanId × ConnectionId}
    (h h' : List (ChanId × DaemonTcp)) (hp : p ∈ collectHttp [] h) :
    p ∈ collectHttp [] (h ++ h') := by
  rw [collectHttp_append]
  exact mem_collectHttp_of_acc _ _ hp

theorem orderedAux_append (sN sH : List (ChanId × ConnectionId))
    (h h' : List (ChanId × DaemonTcp)) :
    orderedAux sN sH (h ++ h') =
      (orderedAux sN sH h && orderedAux (collectNew sN h) (collectHttp sH h) h') := by
  induction h generalizing sN sH with
  | nil => simp [orderedAux, collectNew, collectHttp]
  | cons q rest ih =>
    obtain ⟨chan, m⟩ := q
    cases m with
    | NewConnection c p1 p2 p3 p4 =>
      simp [orderedAux, collectNew, collectHttp, ih]
    | HttpRequest c r pay => simp [orderedAux, collectNew, collectHttp, ih]
    | HttpRequestFramed c r pay => simp [orderedAux, collectNew, collectHttp, ih]
    | Data c bs => simp [orderedAux, collectNew, collectHttp, ih, Bool.and_assoc]
    | Close c => simp [orderedAux, collectNew, collectHttp, ih, Bool.and_assoc]
    | SubscribeResult r => simp [orderedAux, collectNew, collectHttp, ih]

theorem ordered_append_subscribe (h : List (ChanId × DaemonTcp)) (chan : ChanId)
    (r : Except ResponseError Unit) (ho : ordered h = true) :
    ordered (h ++ [(chan, .SubscribeResult r)]) = true := by
  unfold ordered at *
  rw [orderedAux_append]
  simp [orderedAux, ho]

theorem ordered_append_newConn (h : List (ChanId × DaemonTcp)) (chan : ChanId)
    (c : ConnectionId) (p1 p2 : Port) (p3 p4 : Nat) (ho : ordered h = true) :
    ordered (h ++ [(chan, .NewConnection c p1 p2 p3 p4)]) = true := by
  unfold ordered at *
  rw [orderedAux_append]
  simp [orderedAux, ho]

theorem ordered_append_httpReq (h : List (ChanId × DaemonTcp)) (chan : ChanId)
    (c : ConnectionId) (r : RequestId) (pay : Nat) (ho : ordered h = true) :
    ordered (h ++ [(chan, .HttpRequest c r pay)]) = true ∧
    ordered (h ++ [(chan, .HttpRequestFramed c r pay)]) = true := by
  unfold ordered at *
  constructor <;> (rw [orderedAux_append]; simp [orderedAux, ho])

theorem ordered_append_data (h : List (ChanId × DaemonTcp)) (chan : ChanId)
    (c : ConnectionId) (bs : List Nat) (ho : ordered h = true)
    (hmem : (chan, c) ∈ collectNew [] h) :
    ordered (h ++ [(chan, .Data c bs)]) = true := by
  unfold ordered at *
  rw [orderedAux_append]
  simp [orderedAux, ho, hmem]

theorem ordered_append_close (h : List (ChanId × DaemonTcp)) (chan : ChanId)
    (c : ConnectionId) (ho : ordered h = true)
    (hmem : (chan, c) ∈ collectNew [] h ∨ (chan, c) ∈ collectHttp [] h) :
    ordered (h ++ [(chan, .Close c)]) = true := by
  unfold ordered at *
  rw [orderedAux_append]
  rcases hmem with hm | hm <;> simp [orderedAux, ho, hm]

theorem ordered_append_closes (h : List (ChanId × DaemonTcp)) (c : ConnectionId)
    (l : List (ChanId × DaemonTcp)) (ho : ordered h = true)
    (hl : ∀ p ∈ l, ∃ chan, p = (chan, DaemonTcp.Close c) ∧
      ((chan, c) ∈ collectNew [] h ∨ (chan, c) ∈ collectHttp [] h)) :
    ordered (h ++ l) = true := by
  induction l generalizing h with
  | nil => simpa using ho
  | cons p rest ih =>
    obtain ⟨chan, hp, hmem⟩ := hl p (List.mem_cons_self p rest)
    subst hp
    have h1 : ordered (h ++ [(chan, .Close c)]) = true :=
      ordered_append_close h chan c ho hmem
    have hsplit : h ++ (chan, DaemonTcp.Close c) :: rest =
        (h ++ [(chan, DaemonTcp.Close c)]) ++ rest := by simp
    rw [hsplit]
    apply ih _ h1
    intro q hq
    obtain ⟨chan2, hq2, hmem2⟩ := hl q (List.mem_cons_of_mem _ hq)
    refine ⟨chan2, hq2, ?_⟩
    rcases hmem2 with hm | hm
    · exact Or.inl (mem_collectNew_append _ _ hm)
    · exact Or.inr (mem_collectHttp_append _ _ hm)

theorem mem_collectNew_last (h : List (ChanId × DaemonTcp)) (chan : ChanId)
    (c : ConnectionId) (p1 p2 : Port) (p3 p4 : Nat) :
    (chan, c) ∈ collectNew [] (h ++ [(chan, .NewConnection c p1 p2 p3 p4)]) := by
  rw [collectNew_append]
  simp [collectNew]

theorem mem_collectHttp_last (h : List (ChanId × DaemonTcp)) (chan : ChanId)
    (c : ConnectionId) (r : RequestId) (pay : Nat) :
    (chan, c) ∈ collectHttp [] (h ++ [(chan, .HttpRequest c r pay)]) ∧
    (chan, c) ∈ collectHttp [] (h ++ [(chan, .HttpRequestFramed c r pay)]) := by
  constructor <;> (rw [collectHttp_append]; simp [collectHttp])

theorem sendCloseFold_sent (env : Env) (st : TcpConnectionStealer) (c : ConnectionId)
    (ks : List ClientId) :
    ∀ p ∈ (sendCloseFold env st c ks).1, ∃ chan k v, k ∈ ks ∧
      mlookup st.clients k = some (chan, v) ∧ p = (chan, DaemonTcp.Close c) := by
  induction ks with
  | nil => simp [sendCloseFold]
  | cons k rest ih =>
    cases hk : mlookup st.clients k with
    | none =>
      intro p hp
      simp only [sendCloseFold, hk] at hp
      obtain ⟨chan2, k2, v2, hk2, hc2, hp2⟩ := ih p hp
      exact ⟨chan2, k2, v2, List.mem_cons_of_mem _ hk2, hc2, hp2⟩
    | some q =>
      obtain ⟨chan, v⟩ := q
      by_cases ha : env.chanAlive chan
      · intro p hp
        simp only [sendCloseFold, hk, ha, if_true] at hp
        rcases List.mem_cons.mp hp with hp | hp
        · exact ⟨chan, k, v, List.mem_cons_self k rest, hk, hp⟩
        · obtain ⟨chan2, k2, v2, hk2, hc2, hp2⟩ := ih p hp
          exact ⟨chan2, k2, v2, List.mem_cons_of_mem _ hk2, hc2, hp2⟩
      · intro p hp
        simp [sendCloseFold, hk, ha] at hp

theorem foldRemove_fields (st : TcpConnectionStealer) (l : List ConnectionId) :
    (foldRemove st l).clients = st.clients ∧
    (foldRemove st l).client_connections = st.client_connections ∧
    (foldRemove st l).http_connection_clients = st.http_connection_clients ∧
    (foldRemove st l).http_response_senders = st.http_response_senders ∧
    (foldRemove st l).port_subscriptions = st.port_subscriptions := by
  induction l generalizing st with
  | nil => exact ⟨rfl, rfl, rfl, rfl, rfl⟩
  | cons c rest ih =>
    have hstep : foldRemove st (c :: rest) =
        foldRemove ((remove_connection st c).1) rest := by
      simp [foldRemove, List.foldl_cons]
    rw [hstep]
    simpa [remove_connection] using ih ((remove_connection st c).1)

theorem foldRemove_connection_clients (st : TcpConnectionStealer)
    (l : List ConnectionId) (c : ConnectionId) :
    mlookup (foldRemove st l).connection_clients c =
      if c ∈ l then none else mlookup st.connection_clients c := by
  induction l generalizing st with
  | nil => simp [foldRemove]
  | cons d rest ih =>
    have hstep : foldRemove st (d :: rest) =
        foldRemove ((remove_connection st d).1) rest := by
      simp [foldRemove, List.foldl_cons]
    rw [hstep, ih]
    by_cases hd : c = d
    · subst hd
      by_cases hr : c ∈ rest
      · simp [hr]
      · simp [hr, remove_connection, mlookup_merase_self]
    · by_cases hr : c ∈ rest
      · simp [hr, hd]
      · simp [hr, hd, remove_connection, mlookup_merase_ne _ hd]

theorem close_client_http_tables (st : TcpConnectionStealer) (k : ClientId) :
    (close_client st k).http_connection_clients = st.http_connection_clients ∧
    (close_client st k).http_response_senders = st.http_response_senders := by
  cases hcc : mlookup st.client_connections k with
  | none => simp [close_client, hcc]
  | some remaining =>
    obtain ⟨h1, h2, h3, h4, h5⟩ := foldRemove_fields
      { st with
        port_subscriptions := st.port_subscriptions.remove_all k
        client_connections := merase st.client_connections k } remaining
    constructor
    · simp only [close_client, hcc]
      simpa using h3
    · simp only [close_client, hcc]
      simpa using h4

theorem close_client_clients_lookup (st : TcpConnectionStealer) (k k' : ClientId) :
    mlookup (close_client st k).clients k' =
      if k' = k then none else mlookup st.clients k' := by
  cases hcc : mlookup st.client_connections k with
  | none =>
    by_cases hk : k' = k
    · subst hk
      simp [close_client, hcc, mlookup_merase_self]
    · simp [close_client, hcc, hk, mlookup_merase_ne _ hk]
  | some remaining =>
    obtain ⟨h1, h2, h3, h4, h5⟩ := foldRemove_fields
      { st with
        port_subscriptions := st.port_subscriptions.remove_all k
        client_connections := merase st.client_connections k } remaining
    have hcl : (close_client st k).clients =
        merase st.clients k := by
      simp only [close_client, hcc]
      simp only [h1]
    by_cases hk : k' = k
    · subst hk
      simp [hcl, mlookup_merase_self]
    · simp [hcl, hk, mlookup_merase_ne _ hk]

theorem close_client_client_connections_ne (st : TcpConnectionStealer)
    (k k' : ClientId) (hk : k' ≠ k) :
    mlookup (close_client st k).client_connections k' =
      mlookup st.client_connections k' := by
  cases hcc : mlookup st.client_connections k with
  | none => simp [close_client, hcc]
  | some remaining =>
    obtain ⟨h1, h2, h3, h4, h5⟩ := foldRemove_fields
      { st with
        port_subscriptions := st.port_subscriptions.remove_all k
        client_connections := merase st.client_connections k } remaining
    have hcl : (close_client st k).client_connections =
        merase st.client_connections k := by
      simp only [close_client, hcc]
      simpa using h2
    rw [hcl, mlookup_merase_ne _ hk]

theorem close_client_connection_clients (st : TcpConnectionStealer) (k : ClientId)
    (hC : ∀ c0 k0, mlookup st.connection_clients c0 = some k0 →
      ∃ l, mlookup st.client_connections k0 = some l ∧ c0 ∈ l) :
    ∀ c k', mlookup (close_client st k).connection_clients c = some k' →
      k' ≠ k ∧ mlookup st.connection_clients c = some k' := by
  intro c k'
  cases hcc : mlookup st.client_connections k with
  | none =>
    intro hk'
    have hpre : mlookup st.connection_clients c = some k' := by
      simpa [close_client, hcc] using hk'
    refine ⟨?_, hpre⟩
    intro hek
    subst hek
    obtain ⟨l, hl, _⟩ := hC c k' hpre
    rw [hcc] at hl
    exact absurd hl (by simp)
  | some remaining =>
    intro hk'
    have hred : mlookup (close_client st k).connection_clients c =
        if c ∈ remaining then none else mlookup st.connection_clients c := by
      have h6 := foldRemove_connection_clients
        { st with
          port_subscriptions := st.port_subscriptions.remove_all k
          client_connections := merase st.client_connections k } remaining c
      simp only [close_client, hcc]
      simpa using h6
    rw [hred] at hk'
    by_cases hmem : c ∈ remaining
    · simp [hmem] at hk'
    · simp only [hmem, if_false] at hk'
      refine ⟨?_, hk'⟩
      intro hek
      subst hek
      obtain ⟨l, hl, hcl⟩ := hC c k' hk'
      rw [hcc] at hl
      injection hl with hl
      subst hl
      exact hmem hcl

theorem invTables_mono (st : TcpConnectionStealer) (used : List ClientId)
    (h h' : List (ChanId × DaemonTcp)) (hi : InvTables st used h) :
    InvTables st used (h ++ h') := by
  obtain ⟨hA, hB, hC, hD, hE, hF⟩ := hi
  refine ⟨?_, ?_, hC, hD, hE, hF⟩
  · intro c k hk chan v hcl
    exact mem_collectNew_append _ _ (hA c k hk chan v hcl)
  · intro c ks hks k hkm chan v hcl
    exact mem_collectHttp_append _ _ (hB c ks hks k hkm chan v hcl)

theorem invTables_of_fields_eq (st st' : TcpConnectionStealer) (used : List ClientId)
    (h : List (ChanId × DaemonTcp))
    (h1 : st'.connection_clients = st.connection_clients)
    (h2 : st'.clients = st.clients)
    (h3 : st'.http_connection_clients = st.http_connection_clients)
    (h4 : st'.client_connections = st.client_connections)
    (hi : InvTables st used h) : InvTables st' used h := by
  unfold InvTables
  rw [h1, h2, h3, h4]
  exact hi

theorem connection_unsubscribe_simple_fields (st : TcpConnectionStealer)
    (cid : ConnectionId) :
    (connection_unsubscribe st cid).connection_clients =
      merase st.connection_clients cid ∧
    (connection_unsubscribe st cid).clients = st.clients ∧
    (connection_unsubscribe st cid).http_connection_clients =
      st.http_connection_clients := by
  cases hown : mlookup st.connection_clients cid with
  | none => simp [connection_unsubscribe, remove_connection, hown]
  | some kown =>
    cases hc : mlookup st.client_connections kown with
    | none => simp [connection_unsubscribe, remove_connection, hown, hc]
    | some conns =>
      by_cases he : (conns.filter (fun c => c ≠ cid)).isEmpty
      · simp only [connection_unsubscribe, remove_connection, hown, hc]
        rw [if_pos he]
        exact ⟨rfl, rfl, rfl⟩
      · simp only [connection_unsubscribe, remove_connection, hown, hc]
        rw [if_neg he]
        exact ⟨rfl, rfl, rfl⟩

theorem connection_unsubscribe_client_connections (st : TcpConnectionStealer)
    (cid : ConnectionId) (k0 : ClientId) (c0 : ConnectionId) (hc0 : c0 ≠ cid)
    (hl : ∃ l, mlookup st.client_connections k0 = some l ∧ c0 ∈ l) :
    ∃ l', mlookup (connection_unsubscribe st cid).client_connections k0 = some l' ∧
      c0 ∈ l' := by
  obtain ⟨l, hl, hcl⟩ := hl
  cases hown : mlookup st.connection_clients cid with
  | none =>
    refine ⟨l, ?_, hcl⟩
    simpa [connection_unsubscribe, remove_connection, hown] using hl
  | some kown =>
    by_cases hk : k0 = kown
    · subst hk
      have hmemf : c0 ∈ l.filter (fun c => c ≠ cid) := by
        simp [List.mem_filter, hcl, hc0]
      have hne : (l.filter (fun c => c ≠ cid)).isEmpty = false := by
        cases hfe : l.filter (fun c => c ≠ cid) with
        | nil => rw [hfe] at hmemf; exact absurd hmemf (by simp)
        | cons x xs => simp [List.isEmpty]
      refine ⟨l.filter (fun c => c ≠ cid), ?_, hmemf⟩
      simp only [connection_unsubscribe, remove_connection, hown, hl]
      rw [if_neg (by rw [hne]; simp)]
      exact mlookup_minsert_self _ _ _
    · refine ⟨l, ?_, hcl⟩
      cases hc : mlookup st.client_connections kown with
      | none => simpa [connection_unsubscribe, remove_connection, hown, hc] using hl
      | some conns =>
        by_cases he : (conns.filter (fun c => c ≠ cid)).isEmpty
        · simp only [connection_unsubscribe, remove_connection, hown, hc]
          rw [if_pos he]
          show mlookup (merase st.client_connections kown) k0 = some l
          rw [mlookup_merase_ne _ hk]
          exact hl
        · simp only [connection_unsubscribe, remove_connection, hown, hc]
          rw [if_neg he]
          show mlookup (minsert st.client_connections kown _) k0 = some l
          rw [mlookup_minsert_ne _ _ hk]
          exact hl

theorem invTables_connection_unsubscribe (st : TcpConnectionStealer)
    (used : List ClientId) (h : List (ChanId × DaemonTcp)) (cid : ConnectionId)
    (hi : InvTables st used h) :
    InvTables (connection_unsubscribe st cid) used h := by
  obtain ⟨hA, hB, hC, hD, hE, hF⟩ := hi
  obtain ⟨hcn, hcl, hhttp⟩ := connection_unsubscribe_simple_fields st cid
  refine ⟨?_, ?_, ?_, ?_, ?_, ?_⟩
  · intro c k hk chan v hv
    rw [hcn] at hk
    rw [hcl] at hv
    exact hA c k (mlookup_merase_some hk) chan v hv
  · intro c ks hks k hkm chan v hv
    rw [hhttp] at hks
    rw [hcl] at hv
    exact hB c ks hks k hkm chan v hv
  · intro c k hk
    rw [hcn] at hk
    have hne : c ≠ cid := by
      intro hce
      subst hce
      rw [mlookup_merase_self] at hk
      exact absurd hk (by simp)
    exact connection_unsubscribe_client_connections st cid k c hne
      (hC c k (mlookup_merase_some hk))
  · intro c k hk
    rw [hcn] at hk
    rw [hcl]
    exact hD c k (mlookup_merase_some hk)
  · intro k hk
    rw [hcl] at hk
    exact hE k hk
  · intro c ks hks k hkm
    rw [hhttp] at hks
    exact hF c ks hks k hkm

theorem invTables_close_client (st : TcpConnectionStealer) (used : List ClientId)
    (h : List (ChanId × DaemonTcp)) (k : ClientId)
    (hA : ∀ c k0, mlookup st.connection_clients c = some k0 → k0 ≠ k →
      ∀ chan v, mlookup st.clients k0 = some (chan, v) → (chan, c) ∈ collectNew [] h)
    (hB : ∀ c ks, mlookup st.http_connection_clients c = some ks →
      ∀ k0, k0 ∈ ks → k0 ≠ k → ∀ chan v, mlookup st.clients k0 = some (chan, v) →
        (chan, c) ∈ collectHttp [] h)
    (hC : ∀ c k0, mlookup st.connection_clients c = some k0 →
      ∃ l, mlookup st.client_connections k0 = some l ∧ c ∈ l)
    (hD : ∀ c k0, mlookup st.connection_clients c = some k0 → k0 ≠ k →
      (mlookup st.clients k0).isSome = true)
    (hE : ∀ k0, (mlookup st.clients k0).isSome = true → k0 ∈ used)
    (hF : ∀ c ks, mlookup st.http_connection_clients c = some ks →
      ∀ k0, k0 ∈ ks → k0 ∈ used) :
    InvTables (close_client st k) used h := by
  have hpost := close_client_connection_clients st k hC
  have hclk := close_client_clients_lookup st k
  obtain ⟨hh1, hh2⟩ := close_client_http_tables st k
  refine ⟨?_, ?_, ?_, ?_, ?_, ?_⟩
  · intro c k0 hk0 chan v hv
    obtain ⟨hne, hpre⟩ := hpost c k0 hk0
    rw [hclk k0, if_neg hne] at hv
    exact hA c k0 hpre hne chan v hv
  · intro c ks hks k0 hkm chan v hv
    rw [hh1] at hks
    by_cases hk0 : k0 = k
    · subst hk0
      rw [hclk k0, if_pos rfl] at hv
      exact absurd hv (by simp)
    · rw [hclk k0, if_neg hk0] at hv
      exact hB c ks hks k0 hkm hk0 chan v hv
  · intro c k0 hk0
    obtain ⟨hne, hpre⟩ := hpost c k0 hk0
    rw [close_client_client_connections_ne st k k0 hne]
    exact hC c k0 hpre
  · intro c k0 hk0
    obtain ⟨hne, hpre⟩ := hpost c k0 hk0
    rw [hclk k0, if_neg hne]
    exact hD c k0 hpre hne
  · intro k0 hk0
    by_cases hke : k0 = k
    · subst hke
      rw [hclk k0, if_pos rfl] at hk0
      exact absurd hk0 (by simp)
    · rw [hclk k0, if_neg hke] at hk0
      exact hE k0 hk0
  · intro c ks hks k0 hkm
    rw [hh1] at hks
    exact hF c ks hks k0 hkm

theorem invTables_newClient (st : TcpConnectionStealer) (used : List ClientId)
    (h : List (ChanId × DaemonTcp)) (client_id : ClientId) (tx : ChanId) (v : Nat)
    (hfresh : ¬ client_id ∈ used) (hi : InvTables st used h) :
    InvTables { st with clients := minsert st.clients client_id (tx, v) }
      (client_id :: used) h := by
  obtain ⟨hA, hB, hC, hD, hE, hF⟩ := hi
  refine ⟨?_, ?_, hC, ?_, ?_, ?_⟩
  · intro c k hk chan v0 hv
    rcases mlookup_minsert_cases hv with ⟨hke, _⟩ | ⟨hne, hpre⟩
    · subst hke
      exact absurd (hE k (hD c k hk)) hfresh
    · exact hA c k hk chan v0 hpre
  · intro c ks hks k hkm chan v0 hv
    rcases mlookup_minsert_cases hv with ⟨hke, _⟩ | ⟨hne, hpre⟩
    · subst hke
      exact absurd (hF c ks hks k hkm) hfresh
    · exact hB c ks hks k hkm chan v0 hpre
  · intro c k hk
    by_cases hke : k = client_id
    · subst hke
      simp [mlookup_minsert_self]
    · rw [show mlookup (minsert st.clients client_id (tx, v)) k =
          mlookup st.clients k from mlookup_minsert_ne _ _ hke]
      exact hD c k hk
  · intro k hk
    by_cases hke : k = client_id
    · subst hke
      exact List.mem_cons_self _ _
    · rw [show mlookup (minsert st.clients client_id (tx, v)) k =
          mlookup st.clients k from mlookup_minsert_ne _ _ hke] at hk
      exact List.mem_cons_of_mem _ (hE k hk)
  · intro c ks hks k hkm
    exact List.mem_cons_of_mem _ (hF c ks hks k hkm)

theorem invTables_switch (st : TcpConnectionStealer) (used : List ClientId)
    (h : List (ChanId × DaemonTcp)) (client_id : ClientId) (ver : Nat)
    (hi : InvTables st used h) :
    InvTables (switch_protocol_version st client_id ver) used h := by
  cases hcl : mlookup st.clients client_id with
  | none => simpa [switch_protocol_version, hcl] using hi
  | some q =>
    obtain ⟨chan0, v0⟩ := q
    obtain ⟨hA, hB, hC, hD, hE, hF⟩ := hi
    simp only [switch_protocol_version, hcl]
    refine ⟨?_, ?_, hC, ?_, ?_, hF⟩
    · intro c k hk chan v hv
      rcases mlookup_minsert_cases hv with ⟨hke, hval⟩ | ⟨hne, hpre⟩
      · subst hke
        have hchan : chan = chan0 := by
          injection hval with h1 _
        subst hchan
        exact hA c k hk chan v0 hcl
      · exact hA c k hk chan v hpre
    · intro c ks hks k hkm chan v hv
      rcases mlookup_minsert_cases hv with ⟨hke, hval⟩ | ⟨hne, hpre⟩
      · subst hke
        have hchan : chan = chan0 := by
          injection hval with h1 _
        subst hchan
        exact hB c ks hks k hkm chan v0 hcl
      · exact hB c ks hks k hkm chan v hpre
    · intro c k hk
      by_cases hke : k = client_id
      · subst hke
        simp [mlookup_minsert_self]
      · rw [show mlookup (minsert st.clients client_id (chan0, ver)) k =
            mlookup st.clients k from mlookup_minsert_ne _ _ hke]
        exact hD c k hk
    · intro k hk
      by_cases hke : k = client_id
      · subst hke
        exact hE k (by simp [hcl])
      · rw [show mlookup (minsert st.clients client_id (chan0, ver)) k =
            mlookup st.clients k from mlookup_minsert_ne _ _ hke] at hk
        exact hE k hk

theorem http_response_state_fields (env : Env) (st : TcpConnectionStealer)
    (resp : HttpResponseFallback) :
    (http_response env st resp).1.connection_clients = st.connection_clients ∧
    (http_response env st resp).1.clients = st.clients ∧
    (http_response env st resp).1.http_connection_clients =
      st.http_connection_clients ∧
    (http_response env st resp).1.client_connections = st.client_connections := by
  cases hl : mlookup st.http_response_senders (resp.connection_id, resp.request_id) with
  | none => simp [http_response, hl]
  | some tx =>
    cases hh : env.intoHyper resp.payload with
    | error e => simp [http_response, hl, hh]
    | ok hyper =>
      by_cases ha : env.oneshotAlive tx
      · simp [http_response, hl, hh, ha]
      · simp [http_response, hl, hh, ha]

theorem forward_data_state (env : Env) (st : TcpConnectionStealer) (td : TcpData) :
    (forward_data env st td).state = st ∧ (forward_data env st td).sent = [] := by
  cases hl : mlookup st.write_streams td.connection_id with
  | none => simp [forward_data, hl]
  | some s =>
    by_cases hw : env.writeOk s
    · simp [forward_data, hl, hw]
    · simp [forward_data, hl, hw]

theorem port_subscribe_shape (env : Env) (st : TcpConnectionStealer)
    (client_id : ClientId) (pt : StealType) :
    ∃ ps res, port_subscribe env st client_id pt =
      send_message_to_single_client env { st with port_subscriptions := ps }
        client_id (.SubscribeResult res) := by
  cases pt with
  | All port =>
    exact ⟨(st.port_subscriptions.add client_id port none).1,
      (st.port_subscriptions.add client_id port none).2, rfl⟩
  | FilteredHttp port filter =>
    cases hre : env.regexNew ("(?i)" ++ filter) with
    | ok u =>
      refine ⟨(st.port_subscriptions.add client_id port
        (some (.newHeaderFilter filter))).1,
        (st.port_subscriptions.add client_id port (some (.newHeaderFilter filter))).2, ?_⟩
      simp [port_subscribe, hre]
    | error err =>
      refine ⟨st.port_subscriptions,
        .error (.badHttpFilterRegex filter err), ?_⟩
      simp [port_subscribe, hre]
  | FilteredHttpEx port filter =>
    cases hre : env.filterExTryFrom filter with
    | ok u =>
      refine ⟨(st.port_subscriptions.add client_id port (some (.ex filter))).1,
        (st.port_subscriptions.add client_id port (some (.ex filter))).2, ?_⟩
      simp [port_subscribe, hre]
    | error err =>
      refine ⟨st.port_subscriptions,
        .error (.badHttpFilterExRegex filter err), ?_⟩
      simp [port_subscribe, hre]

theorem sendSubscribe_inv (env : Env) (st : TcpConnectionStealer)
    (used : List ClientId) (h : List (ChanId × DaemonTcp)) (client_id : ClientId)
    (res : Except ResponseError Unit) (hi : InvTables st used h)
    (ho : ordered h = true) :
    ordered (h ++
      (send_message_to_single_client env st client_id (.SubscribeResult res)).sent) =
        true ∧
    ((send_message_to_single_client env st client_id (.SubscribeResult res)).res =
        .ok →
      InvTables
        (send_message_to_single_client env st client_id (.SubscribeResult res)).state
        used
        (h ++
          (send_message_to_single_client env st client_id
            (.SubscribeResult res)).sent)) := by
  cases hcl : mlookup st.clients client_id with
  | none =>
    simp only [send_message_to_single_client, hcl]
    exact ⟨by simpa using ho, fun _ => by simpa using hi⟩
  | some q =>
    obtain ⟨sender, v⟩ := q
    by_cases ha : env.chanAlive sender
    · simp only [send_message_to_single_client, hcl, ha, if_pos]
      refine ⟨ordered_append_subscribe h sender res ho, fun _ => ?_⟩
      exact invTables_mono st used h _ hi
    · simp only [send_message_to_single_client, hcl, ha, if_neg]
      refine ⟨by simpa using ho, fun hres => ?_⟩
      exact absurd hres (by simp)

theorem steal_inv (env : Env) (st : TcpConnectionStealer) (used : List ClientId)
    (h : List (ChanId × DaemonTcp)) (client_id : ClientId) (address : SocketAddr)
    (port : Port) (stream : Nat) (hi : InvTables st used h) (ho : ordered h = true) :
    ordered (h ++ (steal_connection env st client_id address port stream).sent) =
      true ∧
    ((steal_connection env st client_id address port stream).res = .ok →
      InvTables (steal_connection env st client_id address port stream).state used
        (h ++ (steal_connection env st client_id address port stream).sent)) := by
  obtain ⟨hA, hB, hC, hD, hE, hF⟩ := hi
  cases hnext : next_index st.index_allocator with
  | none =>
    have hred : steal_connection env st client_id address port stream =
        ⟨st, [], .panic, none⟩ := by
      simp [steal_connection, hnext]
    rw [hred]
    exact ⟨by simpa using ho, fun hres => absurd hres (by simp)⟩
  | some q =>
    obtain ⟨cid, alloc⟩ := q
    cases hla : env.localAddr stream with
    | error e =>
      have hred : steal_connection env st client_id address port stream =
          ⟨{ st with index_allocator := alloc }, [], .err .io, none⟩ := by
        simp [steal_connection, hnext, hla]
      rw [hred]
      exact ⟨by simpa using ho, fun hres => absurd hres (by simp)⟩
    | ok la =>
      cases hcl : mlookup st.clients client_id with
      | some p =>
        obtain ⟨tx, v⟩ := p
        by_cases halive : env.chanAlive tx
        · have hred : steal_connection env st client_id address port stream =
              ⟨{ st with
                  index_allocator := alloc
                  write_streams := minsert st.write_streams cid stream
                  read_streams := minsert st.read_streams cid stream
                  connection_clients := minsert st.connection_clients cid client_id
                  client_connections := minsert st.client_connections client_id
                    (sinsert ((mlookup st.client_connections client_id).getD []) cid) },
               [(tx, .NewConnection cid port address.port address.ip la)],
               .ok, none⟩ := by
            simp [steal_connection, hnext, hla, hcl, sendTo, halive]
          rw [hred]
          refine ⟨ordered_append_newConn h tx cid port address.port address.ip la ho,
            fun _ => ⟨?_, ?_, ?_, ?_, ?_, ?_⟩⟩
          · intro c k hk chan v2 hv
            rcases mlookup_minsert_cases hk with ⟨hce, hke⟩ | ⟨hcne, hpre⟩
            · subst hce
              subst hke
              rw [hcl] at hv
              injection hv with hv2
              injection hv2 with hchan _
              subst hchan
              exact mem_collectNew_last h tx c port address.port address.ip la
            · exact mem_collectNew_append _ _ (hA c k hpre chan v2 hv)
          · intro c ks hks k hkm chan v2 hv
            exact mem_collectHttp_append _ _ (hB c ks hks k hkm chan v2 hv)
          · intro c k hk
            rcases mlookup_minsert_cases hk with ⟨hce, hke⟩ | ⟨hcne, hpre⟩
            · subst hce
              subst hke
              exact ⟨_, mlookup_minsert_self _ _ _, mem_sinsert_self _ _⟩
            · obtain ⟨l, hlk, hcl2⟩ := hC c k hpre
              by_cases hke : k = client_id
              · subst hke
                refine ⟨_, mlookup_minsert_self _ _ _, ?_⟩
                rw [hlk]
                simpa using mem_sinsert_of_mem _ hcl2
              · exact ⟨l, by rw [mlookup_minsert_ne _ _ hke]; exact hlk, hcl2⟩
          · intro c k hk
            rcases mlookup_minsert_cases hk with ⟨hce, hke⟩ | ⟨hcne, hpre⟩
            · subst hke
              simp [hcl]
            · exact hD c k hpre
          · exact hE
          · exact hF
        · have hred : steal_connection env st client_id address port stream =
              ⟨{ st with
                  index_allocator := alloc
                  write_streams := minsert st.write_streams cid stream
                  read_streams := minsert st.read_streams cid stream
                  connection_clients := minsert st.connection_clients cid client_id
                  client_connections := minsert st.client_connections client_id
                    (sinsert ((mlookup st.client_connections client_id).getD []) cid) },
               [], .err .sendError, none⟩ := by
            simp [steal_connection, hnext, hla, hcl, sendTo, halive]
          rw [hred]
          exact ⟨by simpa using ho, fun hres => absurd hres (by simp)⟩
      | none =>
        have hred : steal_connection env st client_id address port stream =
            ⟨close_client
              { st with
                index_allocator := alloc
                write_streams := minsert st.write_streams cid stream
                read_streams := minsert st.read_streams cid stream
                connection_clients := minsert st.connection_clients cid client_id
                client_connections := minsert st.client_connections client_id
                  (sinsert ((mlookup st.client_connections client_id).getD []) cid) }
              client_id, [], .ok, none⟩ := by
          simp [steal_connection, hnext, hla, hcl]
        rw [hred]
        refine ⟨by simpa using ho, fun _ => ?_⟩
        rw [show h ++ ([] : List (ChanId × DaemonTcp)) = h from by simp]
        apply invTables_close_client
        · intro c k0 hk0 hne chan v2 hv
          rcases mlookup_minsert_cases hk0 with ⟨hce, hke⟩ | ⟨hcne, hpre⟩
          · exact absurd hke hne
          · exact hA c k0 hpre chan v2 hv
        · intro c ks hks k0 hkm hne chan v2 hv
          exact hB c ks hks k0 hkm chan v2 hv
        · intro c k0 hk0
          rcases mlookup_minsert_cases hk0 with ⟨hce, hke⟩ | ⟨hcne, hpre⟩
          · subst hce
            subst hke
            exact ⟨_, mlookup_minsert_self _ _ _, mem_sinsert_self _ _⟩
          · obtain ⟨l, hlk, hcl2⟩ := hC c k0 hpre
            by_cases hke : k0 = client_id
            · subst hke
              refine ⟨_, mlookup_minsert_self _ _ _, ?_⟩
              rw [hlk]
              simpa using mem_sinsert_of_mem _ hcl2
            · exact ⟨l, by rw [mlookup_minsert_ne _ _ hke]; exact hlk, hcl2⟩
        · intro c k0 hk0 hne
          rcases mlookup_minsert_cases hk0 with ⟨hce, hke⟩ | ⟨hcne, hpre⟩
          · exact absurd hke hne
          · exact hD c k0 hpre
        · exact hE
        · exact hF

theorem forward_read_inv (env : Env) (st : TcpConnectionStealer)
    (used : List ClientId) (h : List (ChanId × DaemonTcp)) (cid : ConnectionId)
    (chunk : Option (Except Unit (List Nat))) (hi : InvTables st used h)
    (ho : ordered h = true) :
    ordered (h ++ (forward_incoming_tcp_data env st cid chunk).sent) = true ∧
    InvTables (forward_incoming_tcp_data env st cid chunk).state used
      (h ++ (forward_incoming_tcp_data env st cid chunk).sent) := by
  cases chunk with
  | some r =>
    cases r with
    | error e =>
      have hred : forward_incoming_tcp_data env st cid (some (.error e)) =
          ⟨st, [], .err .io, none⟩ := rfl
      rw [hred]
      exact ⟨by simpa using ho, by simpa using hi⟩
    | ok bytes =>
      cases hb : (mlookup st.connection_clients cid).bind
          (fun k => mlookup st.clients k) with
      | none =>
        have hred : forward_incoming_tcp_data env st cid (some (.ok bytes)) =
            ⟨st, [], .ok, none⟩ := by
          simp [forward_incoming_tcp_data, hb]
        rw [hred]
        exact ⟨by simpa using ho, by simpa using hi⟩
      | some p =>
        obtain ⟨tx, v⟩ := p
        have hb2 := hb
        rw [Option.bind_eq_some] at hb2
        obtain ⟨k, hk, hkc⟩ := hb2
        by_cases ha : env.chanAlive tx
        · have hred : forward_incoming_tcp_data env st cid (some (.ok bytes)) =
              ⟨st, [(tx, .Data cid bytes)], .ok, none⟩ := by
            simp [forward_incoming_tcp_data, hb, sendTo, ha]
          rw [hred]
          refine ⟨?_, invTables_mono st used h _ hi⟩
          exact ordered_append_data h tx cid bytes ho (hi.1 cid k hk tx v hkc)
        · have hred : forward_incoming_tcp_data env st cid (some (.ok bytes)) =
              ⟨st, [], .err .sendError, none⟩ := by
            simp [forward_incoming_tcp_data, hb, sendTo, ha]
          rw [hred]
          exact ⟨by simpa using ho, by simpa using hi⟩
  | none =>
    cases hb : (mlookup st.connection_clients cid).bind
        (fun k => mlookup st.clients k) with
    | none =>
      have hred : forward_incoming_tcp_data env st cid none =
          ⟨st, [], .ok, none⟩ := by
        simp [forward_incoming_tcp_data, hb]
      rw [hred]
      exact ⟨by simpa using ho, by simpa using hi⟩
    | some p =>
      obtain ⟨tx, v⟩ := p
      have hb2 := hb
      rw [Option.bind_eq_some] at hb2
      obtain ⟨k, hk, hkc⟩ := hb2
      by_cases ha : env.chanAlive tx
      · have hred : forward_incoming_tcp_data env st cid none =
            ⟨st, [(tx, .Close cid)], .ok, none⟩ := by
          simp [forward_incoming_tcp_data, hb, sendTo, ha]
        rw [hred]
        refine ⟨?_, invTables_mono st used h _ hi⟩
        exact ordered_append_close h tx cid ho (Or.inl (hi.1 cid k hk tx v hkc))
      · have hred : forward_incoming_tcp_data env st cid none =
            ⟨st, [], .err .sendError, none⟩ := by
          simp [forward_incoming_tcp_data, hb, sendTo, ha]
        rw [hred]
        exact ⟨by simpa using ho, by simpa using hi⟩

theorem forward_http_inv (env : Env) (st : TcpConnectionStealer)
    (used : List ClientId) (h : List (ChanId × DaemonTcp)) (req : HttpRequestData)
    (tx0 : Nat) (hi : InvTables st used h) (ho : ordered h = true) :
    ordered (h ++ (forward_stolen_http_request env st (some (req, tx0))).sent) =
      true ∧
    ((forward_stolen_http_request env st (some (req, tx0))).res = .ok →
      InvTables (forward_stolen_http_request env st (some (req, tx0))).state used
        (h ++ (forward_stolen_http_request env st (some (req, tx0))).sent)) := by
  obtain ⟨hA, hB, hC, hD, hE, hF⟩ := hi
  cases hcl : mlookup st.clients req.client_id with
  | none =>
    have hred : forward_stolen_http_request env st (some (req, tx0)) =
        ⟨st, [], .ok, none⟩ := by
      simp [forward_stolen_http_request, hcl]
    rw [hred]
    exact ⟨by simpa using ho,
      fun _ => by simpa using (⟨hA, hB, hC, hD, hE, hF⟩ : InvTables st used h)⟩
  | some p =>
    obtain ⟨txc, ver⟩ := p
    have hmain : ∀ message : DaemonTcp,
        (message = .HttpRequestFramed req.connection_id req.request_id req.payload ∨
         message = .HttpRequest req.connection_id req.request_id req.payload) →
        ordered (h ++ [(txc, message)]) = true ∧
        InvTables
          { st with
            http_connection_clients := minsert st.http_connection_clients
              req.connection_id
              (sinsert ((mlookup st.http_connection_clients req.connection_id).getD [])
                req.client_id)
            http_response_senders := minsert st.http_response_senders
              (req.connection_id, req.request_id) tx0 }
          used (h ++ [(txc, message)]) := by
      intro message hmsg
      constructor
      · rcases hmsg with hm | hm <;> subst hm
        · exact (ordered_append_httpReq h txc req.connection_id req.request_id
            req.payload ho).2
        · exact (ordered_append_httpReq h txc req.connection_id req.request_id
            req.payload ho).1
      · have hhm : (txc, req.connection_id) ∈ collectHttp [] (h ++ [(txc, message)]) := by
          rcases hmsg with hm | hm <;> subst hm
          · exact (mem_collectHttp_last h txc req.connection_id req.request_id
              req.payload).2
          · exact (mem_collectHttp_last h txc req.connection_id req.request_id
              req.payload).1
        refine ⟨?_, ?_, hC, hD, hE, ?_⟩
        · intro c k hk chan v2 hv
          exact mem_collectNew_append _ _ (hA c k hk chan v2 hv)
        · intro c ks hks k hkm chan v2 hv
          rcases mlookup_minsert_cases hks with ⟨hce, hkse⟩ | ⟨hcne, hpre⟩
          · subst hce
            subst hkse
            rcases mem_sinsert_elim hkm with hke | hkp
            · subst hke
              rw [hcl] at hv
              injection hv with hv2
              injection hv2 with hchan _
              subst hchan
              exact hhm
            · cases hpre0 : mlookup st.http_connection_clients req.connection_id with
              | none =>
                rw [hpre0] at hkp
                exact absurd hkp (by simp)
              | some ks0 =>
                rw [hpre0] at hkp
                exact mem_collectHttp_append _ _
                  (hB req.connection_id ks0 hpre0 k (by simpa using hkp) chan v2 hv)
          · exact mem_collectHttp_append _ _ (hB c ks hpre k hkm chan v2 hv)
        · intro c ks hks k hkm
          rcases mlookup_minsert_cases hks with ⟨hce, hkse⟩ | ⟨hcne, hpre⟩
          · subst hce
            subst hkse
            rcases mem_sinsert_elim hkm with hke | hkp
            · subst hke
              exact hE req.client_id (by simp [hcl])
            · cases hpre0 : mlookup st.http_connection_clients req.connection_id with
              | none =>
                rw [hpre0] at hkp
                exact absurd hkp (by simp)
              | some ks0 =>
                rw [hpre0] at hkp
                exact hF req.connection_id ks0 hpre0 k (by simpa using hkp)
          · exact hF c ks hpre k hkm
    by_cases hfr : httpFramedMatches ver
    · by_cases ha : env.chanAlive txc
      · have hred : forward_stolen_http_request env st (some (req, tx0)) =
            ⟨{ st with
                http_connection_clients := minsert st.http_connection_clients
                  req.connection_id
                  (sinsert
                    ((mlookup st.http_connection_clients req.connection_id).getD [])
                    req.client_id)
                http_response_senders := minsert st.http_response_senders
                  (req.connection_id, req.request_id) tx0 },
             [(txc, .HttpRequestFramed req.connection_id req.request_id req.payload)],
             .ok, none⟩ := by
          simp [forward_stolen_http_request, hcl, hfr, sendTo, ha]
        rw [hred]
        exact ⟨(hmain _ (Or.inl rfl)).1, fun _ => (hmain _ (Or.inl rfl)).2⟩
      · have hred : forward_stolen_http_request env st (some (req, tx0)) =
            ⟨{ st with
                http_connection_clients := minsert st.http_connection_clients
                  req.connection_id
                  (sinsert
                    ((mlookup st.http_connection_clients req.connection_id).getD [])
                    req.client_id)
                http_response_senders := minsert st.http_response_senders
                  (req.connection_id, req.request_id) tx0 },
             [], .err .sendError, none⟩ := by
          simp [forward_stolen_http_request, hcl, hfr, sendTo, ha]
        rw [hred]
        exact ⟨by simpa using ho, fun hres => absurd hres (by simp)⟩
    · by_cases ha : env.chanAlive txc
      · have hred : forward_stolen_http_request env st (some (req, tx0)) =
            ⟨{ st with
                http_connection_clients := minsert st.http_connection_clients
                  req.connection_id
                  (sinsert
                    ((mlookup st.http_connection_clients req.connection_id).getD [])
                    req.client_id)
                http_response_senders := minsert st.http_response_senders
                  (req.connection_id, req.request_id) tx0 },
             [(txc, .HttpRequest req.connection_id req.request_id req.payload)],
             .ok, none⟩ := by
          simp [forward_stolen_http_request, hcl, hfr, sendTo, ha]
        rw [hred]
        exact ⟨(hmain _ (Or.inr rfl)).1, fun _ => (hmain _ (Or.inr rfl)).2⟩
      · have hred : forward_stolen_http_request env st (some (req, tx0)) =
            ⟨{ st with
                http_connection_clients := minsert st.http_connection_clients
                  req.connection_id
                  (sinsert
                    ((mlookup st.http_connection_clients req.connection_id).getD [])
                    req.client_id)
                http_response_senders := minsert st.http_response_senders
                  (req.connection_id, req.request_id) tx0 },
             [], .err .sendError, none⟩ := by
          simp [forward_stolen_http_request, hcl, hfr, sendTo, ha]
        rw [hred]
        exact ⟨by simpa using ho, fun hres => absurd hres (by simp)⟩

theorem invTables_http_close (env : Env) (st : TcpConnectionStealer)
    (used : List ClientId) (h : List (ChanId × DaemonTcp)) (cid : ConnectionId)
    (ks : List ClientId) (hks : mlookup st.http_connection_clients cid = some ks)
    (hi : InvTables st used h) (ho : ordered h = true) :
    ordered (h ++ (sendCloseFold env
      { st with http_connection_clients := merase st.http_connection_clients cid }
      cid ks).1) = true ∧
    ∀ alloc' : List ConnectionId, InvTables
      { st with
        http_connection_clients := merase st.http_connection_clients cid
        index_allocator := alloc' }
      used
      (h ++ (sendCloseFold env
        { st with http_connection_clients := merase st.http_connection_clients cid }
        cid ks).1) := by
  obtain ⟨hA, hB, hC, hD, hE, hF⟩ := hi
  constructor
  · apply ordered_append_closes h cid _ ho
    intro p hp
    obtain ⟨chan, k, v, hkm, hkc, hpe⟩ := sendCloseFold_sent env _ cid ks p hp
    exact ⟨chan, hpe, Or.inr (hB cid ks hks k hkm chan v hkc)⟩
  · intro alloc'
    refine ⟨?_, ?_, hC, hD, hE, ?_⟩
    · intro c k hk chan v hv
      exact mem_collectNew_append _ _ (hA c k hk chan v hv)
    · intro c ks2 hks2 k hkm chan v hv
      exact mem_collectHttp_append _ _
        (hB c ks2 (mlookup_merase_some hks2) k hkm chan v hv)
    · intro c ks2 hks2 k hkm
      exact hF c ks2 (mlookup_merase_some hks2) k hkm

theorem loopStep_preserves_inv (env : Env) (ls : LoopState) (ev : LoopEvent)
    (hinv : LoopInv ls) : LoopInv (loopStep env ls ev) := by
  obtain ⟨ho, hrunimp⟩ := hinv
  cases hr : ls.running with
  | false =>
    have hstep : loopStep env ls ev = ls := by
      unfold loopStep
      rw [hr, if_pos rfl]
    rw [hstep]
    exact ⟨ho, hrunimp⟩
  | true =>
    have hit := hrunimp hr
    cases ev with
    | commandClosed =>
      have hstep : loopStep env ls .commandClosed = { ls with running := false } := by
        unfold loopStep
        rw [hr]
        simp
      rw [hstep]
      exact ⟨ho, fun hc => absurd hc (by simp)⟩
    | acceptError =>
      have hstep : loopStep env ls .acceptError = { ls with running := false } := by
        unfold loopStep
        rw [hr]
        simp
      rw [hstep]
      exact ⟨ho, fun hc => absurd hc (by simp)⟩
    | cancelled =>
      have hstep : loopStep env ls .cancelled = { ls with running := false } := by
        unfold loopStep
        rw [hr]
        simp
      rw [hstep]
      exact ⟨ho, fun hc => absurd hc (by simp)⟩
    | httpRequestClosed =>
      have hstep : loopStep env ls .httpRequestClosed = { ls with running := false } := by
        unfold loopStep
        rw [hr]
        simp
      rw [hstep]
      exact ⟨ho, fun hc => absurd hc (by simp)⟩
    | command client_id c =>
      cases c with
      | NewClient tx v =>
        by_cases hused : client_id ∈ ls.usedClients
        · have hstep : loopStep env ls (.command client_id (.NewClient tx v)) = ls := by
            unfold loopStep
            rw [hr]
            simp [hused]
          rw [hstep]
          exact ⟨ho, hrunimp⟩
        · have hstep : loopStep env ls (.command client_id (.NewClient tx v)) =
              { st := { ls.st with
                  clients := minsert ls.st.clients client_id (tx, v) },
                filterConns := ls.filterConns,
                usedClients := client_id :: ls.usedClients,
                running := true,
                history := ls.history } := by
            unfold loopStep
            rw [hr]
            simp [hused, handle_command]
          rw [hstep]
          exact ⟨ho, fun _ => invTables_newClient ls.st ls.usedClients ls.history
            client_id tx v hused hit⟩
      | ConnectionUnsubscribe cid =>
        have hstep : loopStep env ls (.command client_id (.ConnectionUnsubscribe cid)) =
            { st := connection_unsubscribe ls.st cid,
              filterConns := ls.filterConns,
              usedClients := ls.usedClients,
              running := true,
              history := ls.history } := by
          unfold loopStep
          rw [hr]
          simp [handle_command]
        rw [hstep]
        exact ⟨ho, fun _ => invTables_connection_unsubscribe ls.st ls.usedClients
          ls.history cid hit⟩
      | PortSubscribe pt =>
        obtain ⟨ps, res, heq⟩ := port_subscribe_shape env ls.st client_id pt
        have hS := sendSubscribe_inv env { ls.st with port_subscriptions := ps }
          ls.usedClients ls.history client_id res
          (invTables_of_fields_eq ls.st _ _ _ rfl rfl rfl rfl hit) ho
        have hstep : loopStep env ls (.command client_id (.PortSubscribe pt)) =
            { st := (send_message_to_single_client env
                { ls.st with port_subscriptions := ps } client_id
                (.SubscribeResult res)).state,
              filterConns := ls.filterConns,
              usedClients := ls.usedClients,
              running := decide ((send_message_to_single_client env
                { ls.st with port_subscriptions := ps } client_id
                (.SubscribeResult res)).res = .ok),
              history := ls.history ++ (send_message_to_single_client env
                { ls.st with port_subscriptions := ps } client_id
                (.SubscribeResult res)).sent } := by
          unfold loopStep
          rw [hr]
          simp [handle_command, heq]
        rw [hstep]
        exact ⟨hS.1, fun hrun' => hS.2 (of_decide_eq_true hrun')⟩
      | PortUnsubscribe port =>
        have hstep : loopStep env ls (.command client_id (.PortUnsubscribe port)) =
            { st := { ls.st with
                port_subscriptions := ls.st.port_subscriptions.remove client_id port },
              filterConns := ls.filterConns,
              usedClients := ls.usedClients,
              running := true,
              history := ls.history } := by
          unfold loopStep
          rw [hr]
          simp [handle_command]
        rw [hstep]
        exact ⟨ho, fun _ => invTables_of_fields_eq ls.st _ _ _ rfl rfl rfl rfl hit⟩
      | ClientClose =>
        have hstep : loopStep env ls (.command client_id .ClientClose) =
            { st := close_client ls.st client_id,
              filterConns := ls.filterConns,
              usedClients := ls.usedClients,
              running := true,
              history := ls.history } := by
          unfold loopStep
          rw [hr]
          simp [handle_command]
        rw [hstep]
        refine ⟨ho, fun _ => invTables_close_client ls.st ls.usedClients ls.history
          client_id ?_ ?_ hit.2.2.1 ?_ hit.2.2.2.2.1 hit.2.2.2.2.2⟩
        · intro c k0 hk0 _ chan v hv
          exact hit.1 c k0 hk0 chan v hv
        · intro c ks hks k0 hkm _ chan v hv
          exact hit.2.1 c ks hks k0 hkm chan v hv
        · intro c k0 hk0 _
          exact hit.2.2.2.1 c k0 hk0
      | ResponseData td =>
        obtain ⟨hfs, hfsent⟩ := forward_data_state env ls.st td
        have hstep : loopStep env ls (.command client_id (.ResponseData td)) =
            { st := (forward_data env ls.st td).state,
              filterConns := ls.filterConns,
              usedClients := ls.usedClients,
              running := decide ((forward_data env ls.st td).res = .ok),
              history := ls.history ++ (forward_data env ls.st td).sent } := by
          unfold loopStep
          rw [hr]
          simp [handle_command]
        rw [hstep, hfs, hfsent]
        exact ⟨by simpa using ho, fun _ => by simpa using hit⟩
      | HttpResponse resp =>
        obtain ⟨hq1, hq2, hq3, hq4⟩ := http_response_state_fields env ls.st resp
        have hstep : loopStep env ls (.command client_id (.HttpResponse resp)) =
            { st := (http_response env ls.st resp).1,
              filterConns := ls.filterConns,
              usedClients := ls.usedClients,
              running := true,
              history := ls.history } := by
          unfold loopStep
          rw [hr]
          simp [handle_command]
        rw [hstep]
        exact ⟨ho, fun _ => invTables_of_fields_eq ls.st _ _ _ hq1 hq2 hq3 hq4 hit⟩
      | SwitchProtocolVersion ver =>
        have hstep : loopStep env ls (.command client_id (.SwitchProtocolVersion ver)) =
            { st := switch_protocol_version ls.st client_id ver,
              filterConns := ls.filterConns,
              usedClients := ls.usedClients,
              running := true,
              history := ls.history } := by
          unfold loopStep
          rw [hr]
          simp [handle_command]
        rw [hstep]
        exact ⟨ho, fun _ => invTables_switch ls.st ls.usedClients ls.history
          client_id ver hit⟩
    | accept stream address =>
      cases hod : env.origDst stream with
      | error e =>
        have hstep : loopStep env ls (.accept stream address) =
            { st := ls.st, filterConns := ls.filterConns,
              usedClients := ls.usedClients, running := false,
              history := ls.history } := by
          unfold loopStep
          rw [hr]
          simp [incoming_connection, hod]
        rw [hstep]
        exact ⟨ho, fun hc => absurd hc (by simp)⟩
      | ok real0 =>
        cases hget : ls.st.port_subscriptions.get real0.port with
        | none =>
          have hstep : loopStep env ls (.accept stream address) =
              { st := ls.st, filterConns := ls.filterConns,
                usedClients := ls.usedClients, running := true,
                history := ls.history } := by
            unfold loopStep
            rw [hr]
            simp [incoming_connection, hod, hget]
          rw [hstep]
          exact ⟨ho, fun _ => hit⟩
        | some sub =>
          cases sub with
          | Filtered fs =>
            cases hnext : next_index ls.st.index_allocator with
            | none =>
              have hstep : loopStep env ls (.accept stream address) =
                  { st := ls.st, filterConns := ls.filterConns,
                    usedClients := ls.usedClients, running := false,
                    history := ls.history } := by
                unfold loopStep
                rw [hr]
                simp [incoming_connection, hod, hget, hnext]
              rw [hstep]
              exact ⟨ho, fun hc => absurd hc (by simp)⟩
            | some q =>
              obtain ⟨cid, alloc⟩ := q
              have hstep : loopStep env ls (.accept stream address) =
                  { st := { ls.st with index_allocator := alloc },
                    filterConns := cid :: ls.filterConns,
                    usedClients := ls.usedClients, running := true,
                    history := ls.history } := by
                unfold loopStep
                rw [hr]
                simp [incoming_connection, hod, hget, hnext]
              rw [hstep]
              exact ⟨ho, fun _ => invTables_of_fields_eq ls.st _ _ _
                rfl rfl rfl rfl hit⟩
          | Unfiltered k =>
            have hS := steal_inv env ls.st ls.usedClients ls.history k address
              real0.port stream hit ho
            have hstep : loopStep env ls (.accept stream address) =
                { st := (steal_connection env ls.st k address real0.port stream).state,
                  filterConns :=
                    match (steal_connection env ls.st k address real0.port
                        stream).spawned with
                    | some c => c :: ls.filterConns
                    | none => ls.filterConns,
                  usedClients := ls.usedClients,
                  running := decide ((steal_connection env ls.st k address real0.port
                    stream).res = .ok),
                  history := ls.history ++
                    (steal_connection env ls.st k address real0.port stream).sent } := by
              unfold loopStep
              rw [hr]
              simp [incoming_connection, hod, hget]
            rw [hstep]
            exact ⟨hS.1, fun hrun' => hS.2 (of_decide_eq_true hrun')⟩
    | readData cid chunk =>
      cases hrs : mlookup ls.st.read_streams cid with
      | none =>
        have hstep : loopStep env ls (.readData cid chunk) = ls := by
          unfold loopStep
          rw [hr]
          simp [hrs]
        rw [hstep]
        exact ⟨ho, hrunimp⟩
      | some s =>
        cases chunk with
        | some rr =>
          have hF := forward_read_inv env ls.st ls.usedClients ls.history cid
            (some rr) hit ho
          have hstep : loopStep env ls (.readData cid (some rr)) =
              { st := (forward_incoming_tcp_data env ls.st cid (some rr)).state,
                filterConns := ls.filterConns,
                usedClients := ls.usedClients,
                running := decide
                  (¬ (forward_incoming_tcp_data env ls.st cid (some rr)).res = .panic),
                history := ls.history ++
                  (forward_incoming_tcp_data env ls.st cid (some rr)).sent } := by
            unfold loopStep
            rw [hr]
            simp [hrs]
          rw [hstep]
          exact ⟨hF.1, fun _ => hF.2⟩
        | none =>
          have hit0 : InvTables
              { ls.st with read_streams := merase ls.st.read_streams cid }
              ls.usedClients ls.history :=
            invTables_of_fields_eq ls.st _ _ _ rfl rfl rfl rfl hit
          have hF := forward_read_inv env
            { ls.st with read_streams := merase ls.st.read_streams cid }
            ls.usedClients ls.history cid none hit0 ho
          have hstep : loopStep env ls (.readData cid none) =
              { st := (forward_incoming_tcp_data env
                  { ls.st with read_streams := merase ls.st.read_streams cid }
                  cid none).state,
                filterConns := ls.filterConns,
                usedClients := ls.usedClients,
                running := decide
                  (¬ (forward_incoming_tcp_data env
                    { ls.st with read_streams := merase ls.st.read_streams cid }
                    cid none).res = .panic),
                history := ls.history ++
                  (forward_incoming_tcp_data env
                    { ls.st with read_streams := merase ls.st.read_streams cid }
                    cid none).sent } := by
            unfold loopStep
            rw [hr]
            simp [hrs]
          rw [hstep]
          exact ⟨hF.1, fun _ => hF.2⟩
    | httpRequest req tx0 =>
      cases hfc : ls.filterConns.contains req.connection_id with
      | false =>
        have hstep : loopStep env ls (.httpRequest req tx0) = ls := by
          unfold loopStep
          rw [hr]
          simp [hfc]
          intro hmem hl
          exact absurd hmem (by simpa using hfc)
        rw [hstep]
        exact ⟨ho, hrunimp⟩
      | true =>
        cases hcc : mlookup ls.st.connection_clients req.connection_id with
        | some k0 =>
          have hstep : loopStep env ls (.httpRequest req tx0) = ls := by
            unfold loopStep
            rw [hr]
            simp [hfc, hcc]
          rw [hstep]
          exact ⟨ho, hrunimp⟩
        | none =>
          have hF := forward_http_inv env ls.st ls.usedClients ls.history req tx0
            hit ho
          have hstep : loopStep env ls (.httpRequest req tx0) =
              { st := (forward_stolen_http_request env ls.st (some (req, tx0))).state,
                filterConns := ls.filterConns,
                usedClients := ls.usedClients,
                running := decide
                  ((forward_stolen_http_request env ls.st (some (req, tx0))).res = .ok),
                history := ls.history ++
                  (forward_stolen_http_request env ls.st (some (req, tx0))).sent } := by
            unfold loopStep
            rw [hr]
            simp [hfc, hcc]
            exact fun hnm => absurd (by simpa using hfc) hnm
          rw [hstep]
          exact ⟨hF.1, fun hrun' => hF.2 (of_decide_eq_true hrun')⟩
    | httpClose cid =>
      cases hfc : ls.filterConns.contains cid with
      | false =>
        have hstep : loopStep env ls (.httpClose cid) = ls := by
          unfold loopStep
          rw [hr]
          simp [hfc]
          intro hmem hl
          exact absurd hmem (by simpa using hfc)
        rw [hstep]
        exact ⟨ho, hrunimp⟩
      | true =>
        cases hcc : mlookup ls.st.connection_clients cid with
        | some k0 =>
          have hstep : loopStep env ls (.httpClose cid) = ls := by
            unfold loopStep
            rw [hr]
            simp [hfc, hcc]
          rw [hstep]
          exact ⟨ho, hrunimp⟩
        | none =>
          cases hks : mlookup ls.st.http_connection_clients cid with
          | none =>
            have hstep : loopStep env ls (.httpClose cid) =
                { st := { ls.st with
                    index_allocator := free_index ls.st.index_allocator cid },
                  filterConns := ls.filterConns.filter (fun c => c ≠ cid),
                  usedClients := ls.usedClients,
                  running := true,
                  history := ls.history } := by
              unfold loopStep
              rw [hr]
              simp [hfc, hcc, hks]
              exact fun hnm => absurd (by simpa using hfc) hnm
            rw [hstep]
            exact ⟨ho, fun _ => invTables_of_fields_eq ls.st _ _ _ rfl rfl rfl rfl hit⟩
          | some ks =>
            have hH := invTables_http_close env ls.st ls.usedClients ls.history cid ks
              hks hit ho
            cases hok : (sendCloseFold env
                { ls.st with
                  http_connection_clients :=
                    merase ls.st.http_connection_clients cid } cid ks).2 with
            | true =>
              have hstep : loopStep env ls (.httpClose cid) =
                  { st := { ls.st with
                      http_connection_clients :=
                        merase ls.st.http_connection_clients cid
                      index_allocator := free_index ls.st.index_allocator cid },
                    filterConns := ls.filterConns.filter (fun c => c ≠ cid),
                    usedClients := ls.usedClients,
                    running := true,
                    history := ls.history ++ (sendCloseFold env
                      { ls.st with
                        http_connection_clients :=
                          merase ls.st.http_connection_clients cid } cid ks).1 } := by
                unfold loopStep
                rw [hr]
                simp [hfc, hcc, hks, hok]
                exact fun hnm => absurd (by simpa using hfc) hnm
              rw [hstep]
              exact ⟨hH.1, fun _ => hH.2 (free_index ls.st.index_allocator cid)⟩
            | false =>
              have hstep : loopStep env ls (.httpClose cid) =
                  { st := { ls.st with
                      http_connection_clients :=
                        merase ls.st.http_connection_clients cid },
                    filterConns := ls.filterConns.filter (fun c => c ≠ cid),
                    usedClients := ls.usedClients,
                    running := false,
                    history := ls.history ++ (sendCloseFold env
                      { ls.st with
                        http_connection_clients :=
                          merase ls.st.http_connection_clients cid } cid ks).1 } := by
                unfold loopStep
                rw [hr]
                simp [hfc, hcc, hks, hok]
                exact fun hnm => absurd (by simpa using hfc) hnm
              rw [hstep]
              exact ⟨hH.1, fun hc => absurd hc (by simp)⟩

theorem runLoop_inv (trace : List (Env × LoopEvent)) (ls : LoopState)
    (h : LoopInv ls) : LoopInv (runLoop ls trace) := by
  induction trace generalizing ls with
  | nil => exact h
  | cons p rest ih =>
    obtain ⟨env, ev⟩ := p
    exact ih _ (loopStep_preserves_inv env ls ev h)

theorem initLoopState_inv : LoopInv initLoopState := by
  refine ⟨rfl, fun _ => ⟨?_, ?_, ?_, ?_, ?_, ?_⟩⟩
  · intro c k hk
    exact absurd hk (by simp [initLoopState, initialStealer, mlookup])
  · intro c ks hks
    exact absurd hks (by simp [initLoopState, initialStealer, mlookup])
  · intro c k hk
    exact absurd hk (by simp [initLoopState, initialStealer, mlookup])
  · intro c k hk
    exact absurd hk (by simp [initLoopState, initialStealer, mlookup])
  · intro k hk
    exact absurd hk (by simp [initLoopState, initialStealer, mlookup])
  · intro c ks hks
    exact absurd hks (by simp [initLoopState, initialStealer, mlookup])

/-- C4 (amended): over every event-loop trace from the initial state,
the delivered-message history is well ordered: on each client channel,
every `Data` carrying a raw connection id was preceded by the
`NewConnection` with that id, and every `Close` carrying an id was
preceded by the `NewConnection` (raw) or by an
`HttpRequest`/`HttpRequestFramed` (filtered) with that id — so a
`Close` reaches only clients that saw the connection.  The original
claim's "exactly one Close is eventually emitted per id" part is
refuted separately: `ConnectionUnsubscribe` emits no `Close`. -/
theorem C4_ordering (trace : List (Env × LoopEvent)) :
    ordered (runLoop initLoopState trace).history = true :=
  (runLoop_inv trace initLoopState initLoopState_inv).1

end Mirrord
